import Mathlib

/-!
Verification of the silent-speaker core against its specification.

The development shallowly embeds the Rust sources:

* `src/dynamic_framing.rs` — salt rotation, dynamic frame build/parse
  (ChaCha20-Poly1305 and SHA-256, used by the source through the `ring`
  crate, are implemented here executably from RFC 8439 / FIPS 180-4);
* `src/fec/{frame,encoder,reassembler}.rs` — FEC frames (xxHash64 from the
  `twox_hash` crate implemented from the xxHash specification), encoder and
  reassembler;
* `src/stream/pool.rs` and `src/stream/scheduler.rs` — the stream pool and
  the scheduler.

Machine integers are modelled as `Nat` with explicit `% 2^w` where the Rust
code can overflow or truncate; `HashMap`/`HashSet` are modelled as
association lists / lists with keyed in-place update, the faithful
order-free abstraction of a hash table; `Instant::now()` becomes an explicit
`now : Nat` argument; the `ring` random generator inputs (ratchet entropy)
become explicit arguments.
-/

namespace SilentSpeaker

set_option maxRecDepth 1000000
set_option maxHeartbeats 2000000

/-! ## Byte-level helpers -/

/-- Big-endian bytes of a `u16` value (`u16::to_be_bytes`). -/
def toBe2 (v : Nat) : List Nat := [v / 256 % 256, v % 256]

/-- Big-endian bytes of a `u32` value (`u32::to_be_bytes`). -/
def toBe4 (v : Nat) : List Nat :=
  [v / 16777216 % 256, v / 65536 % 256, v / 256 % 256, v % 256]

/-- Big-endian bytes of a `u64` value (`u64::to_be_bytes`). -/
def toBe8 (v : Nat) : List Nat :=
  toBe4 (v / 4294967296 % 4294967296) ++ toBe4 (v % 4294967296)

/-- Big-endian reading of a byte list (`u16/u32::from_be_bytes`). -/
def fromBeBytes (l : List Nat) : Nat := l.foldl (fun a b => a * 256 + b) 0

/-- Little-endian bytes of a `u32` value (`u32::to_le_bytes`). -/
def toLe4 (v : Nat) : List Nat :=
  [v % 256, v / 256 % 256, v / 65536 % 256, v / 16777216 % 256]

/-- Little-endian bytes of a `u64` value (`u64::to_le_bytes`). -/
def toLe8 (v : Nat) : List Nat :=
  toLe4 (v % 4294967296) ++ toLe4 (v / 4294967296 % 4294967296)

/-- Little-endian reading of a byte list. -/
def fromLeBytes (l : List Nat) : Nat := l.foldr (fun b a => a * 256 + b) 0

theorem toBe2_length (v : Nat) : (toBe2 v).length = 2 := rfl

theorem toBe4_length (v : Nat) : (toBe4 v).length = 4 := rfl

theorem toBe8_length (v : Nat) : (toBe8 v).length = 8 := rfl

theorem toLe4_length (v : Nat) : (toLe4 v).length = 4 := rfl

theorem fromBe_toBe2 (v : Nat) (h : v < 65536) : fromBeBytes (toBe2 v) = v := by
  simp [fromBeBytes, toBe2]
  omega

theorem fromBe_toBe4 (v : Nat) (h : v < 4294967296) : fromBeBytes (toBe4 v) = v := by
  simp [fromBeBytes, toBe4]
  omega

theorem toBe2_mem_lt (v b : Nat) (h : b ∈ toBe2 v) : b < 256 := by
  simp [toBe2] at h
  rcases h with h | h <;> omega

theorem toBe4_mem_lt (v b : Nat) (h : b ∈ toBe4 v) : b < 256 := by
  simp [toBe4] at h
  rcases h with h | h | h | h <;> omega

theorem fromBe2_lt (a b : Nat) (ha : a < 256) (hb : b < 256) :
    fromBeBytes [a, b] < 65536 := by
  simp [fromBeBytes]
  omega

theorem fromBe4_lt (a b c d : Nat) (ha : a < 256) (hb : b < 256) (hc : c < 256)
    (hd : d < 256) : fromBeBytes [a, b, c, d] < 4294967296 := by
  simp [fromBeBytes]
  omega

/-! ## SHA-256 (FIPS 180-4), executable

The source derives salts with `ring::digest::SHA256`; this is the standard
algorithm over byte lists, words as `Nat` reduced mod `2^32`. -/

/-- Truncation to a 32-bit word. -/
def w32 (x : Nat) : Nat := x % 4294967296

/-- Right rotation of a 32-bit word. -/
def rotr32 (x n : Nat) : Nat := w32 ((x >>> n) + (x <<< (32 - n)))

/-- Read the big-endian 32-bit words of a byte list. -/
def bytesToWordsBe (l : List Nat) : List Nat :=
  (List.range (l.length / 4)).map (fun i => fromBeBytes ((l.drop (4 * i)).take 4))

/-- SHA-256 round constants. -/
def sha256K : List Nat :=
  [1116352408, 1899447441, 3049323471, 3921009573, 961987163, 1508970993,
   2453635748, 2870763221, 3624381080, 310598401, 607225278, 1426881987,
   1925078388, 2162078206, 2614888103, 3248222580, 3835390401, 4022224774,
   264347078, 604807628, 770255983, 1249150122, 1555081692, 1996064986,
   2554220882, 2821834349, 2952996808, 3210313671, 3336571891, 3584528711,
   113926993, 338241895, 666307205, 773529912, 1294757372, 1396182291,
   1695183700, 1986661051, 2177026350, 2456956037, 2730485921, 2820302411,
   3259730800, 3345764771, 3516065817, 3600352804, 4094571909, 275423344,
   430227734, 506948616, 659060556, 883997877, 958139571, 1322822218,
   1537002063, 1747873779, 1955562222, 2024104815, 2227730452, 2361852424,
   2428436474, 2756734187, 3204031479, 3329325298]

/-- SHA-256 initial hash value. -/
def sha256Init : List Nat :=
  [1779033703, 3144134277, 1013904242, 2773480762,
   1359893119, 2600822924, 528734635, 1541459225]

/-- Extend 16 message words to the 64-word schedule. -/
def sha256Schedule (ws : List Nat) : List Nat :=
  (List.range 48).foldl
    (fun acc _ =>
      let n := acc.length
      let a := acc.getD (n - 15) 0
      let b := acc.getD (n - 2) 0
      let s0 := (rotr32 a 7) ^^^ (rotr32 a 18) ^^^ (a >>> 3)
      let s1 := (rotr32 b 17) ^^^ (rotr32 b 19) ^^^ (b >>> 10)
      acc ++ [w32 (acc.getD (n - 16) 0 + s0 + acc.getD (n - 7) 0 + s1)])
    ws

/-- One SHA-256 compression step. -/
def sha256Round (st : List Nat) (kw : Nat × Nat) : List Nat :=
  let a := st.getD 0 0
  let b := st.getD 1 0
  let c := st.getD 2 0
  let d := st.getD 3 0
  let e := st.getD 4 0
  let f := st.getD 5 0
  let g := st.getD 6 0
  let h := st.getD 7 0
  let s1 := (rotr32 e 6) ^^^ (rotr32 e 11) ^^^ (rotr32 e 25)
  let ch := (e &&& f) ^^^ ((4294967295 - e) &&& g)
  let t1 := w32 (h + s1 + ch + kw.1 + kw.2)
  let s0 := (rotr32 a 2) ^^^ (rotr32 a 13) ^^^ (rotr32 a 22)
  let mj := (a &&& b) ^^^ (a &&& c) ^^^ (b &&& c)
  let t2 := w32 (s0 + mj)
  [w32 (t1 + t2), a, b, c, w32 (d + t1), e, f, g]

/-- Compress one 64-byte chunk into the running hash. -/
def sha256Compress (h : List Nat) (chunk : List Nat) : List Nat :=
  let ws := sha256Schedule (bytesToWordsBe chunk)
  let st := (sha256K.zip ws).foldl sha256Round h
  (h.zip st).map (fun p => w32 (p.1 + p.2))

/-- SHA-256 of a byte list, as 32 bytes. -/
def sha256 (msg : List Nat) : List Nat :=
  let bitLen := msg.length * 8
  let padZeros := (119 - msg.length % 64) % 64
  let padded := msg ++ [128] ++ List.replicate padZeros 0 ++ toBe8 bitLen
  let final := (List.range (padded.length / 64)).foldl
    (fun h i => sha256Compress h ((padded.drop (64 * i)).take 64)) sha256Init
  final.flatMap toBe4

/-! ## ChaCha20-Poly1305 (RFC 8439), executable

The source seals and opens frame bodies with `ring::aead::CHACHA20_POLY1305`
(256-bit key, 96-bit nonce, 128-bit tag, empty AAD). -/

/-- One ChaCha20 quarter round on state positions `(a, b, c, d)`. -/
def chachaQuarter (st : List Nat) (a b c d : Nat) : List Nat :=
  let va := w32 (st.getD a 0 + st.getD b 0)
  let vd := w32 ((st.getD d 0 ^^^ va) <<< 16) ^^^ ((st.getD d 0 ^^^ va) >>> 16)
  let vc := w32 (st.getD c 0 + vd)
  let vb := w32 ((st.getD b 0 ^^^ vc) <<< 12) ^^^ ((st.getD b 0 ^^^ vc) >>> 20)
  let va2 := w32 (va + vb)
  let vd2 := w32 ((vd ^^^ va2) <<< 8) ^^^ ((vd ^^^ va2) >>> 24)
  let vc2 := w32 (vc + vd2)
  let vb2 := w32 ((vb ^^^ vc2) <<< 7) ^^^ ((vb ^^^ vc2) >>> 25)
  ((((st.set a va2).set b vb2).set c vc2).set d vd2)

/-- One ChaCha20 double round (column round then diagonal round). -/
def chachaDoubleRound (st : List Nat) : List Nat :=
  let st := chachaQuarter st 0 4 8 12
  let st := chachaQuarter st 1 5 9 13
  let st := chachaQuarter st 2 6 10 14
  let st := chachaQuarter st 3 7 11 15
  let st := chachaQuarter st 0 5 10 15
  let st := chachaQuarter st 1 6 11 12
  let st := chachaQuarter st 2 7 8 13
  chachaQuarter st 3 4 9 14

/-- Read the little-endian 32-bit words of a byte list. -/
def bytesToWordsLe (l : List Nat) : List Nat :=
  (List.range (l.length / 4)).map (fun i => fromLeBytes ((l.drop (4 * i)).take 4))

/-- The initial ChaCha20 state for a key, block counter and nonce. -/
def chachaInitState (key : List Nat) (counter : Nat) (nonce : List Nat) : List Nat :=
  [0x61707865, 0x3320646e, 0x79622d32, 0x6b206574] ++
    bytesToWordsLe (key.take 32) ++ [w32 counter] ++ bytesToWordsLe (nonce.take 12)

/-- One 64-byte ChaCha20 keystream block. -/
def chachaBlockBytes (key : List Nat) (counter : Nat) (nonce : List Nat) : List Nat :=
  let st0 := chachaInitState key counter nonce
  let st := (List.range 10).foldl (fun s _ => chachaDoubleRound s) st0
  ((st0.zip st).map (fun p => w32 (p.1 + p.2))).flatMap toLe4

/-- The first `n` ChaCha20 keystream bytes starting at block `counter`. -/
def chachaKeystream (key : List Nat) (counter : Nat) (nonce : List Nat) (n : Nat) :
    List Nat :=
  (((List.range ((n + 63) / 64)).flatMap
    (fun i => chachaBlockBytes key (counter + i) nonce))).take n

/-- ChaCha20 encryption/decryption: XOR with the keystream from `counter`. -/
def chachaXor (key : List Nat) (counter : Nat) (nonce : List Nat) (data : List Nat) :
    List Nat :=
  List.zipWith Nat.xor data (chachaKeystream key counter nonce data.length)

/-- Poly1305 MAC of a message under a 32-byte one-time key. -/
def poly1305 (key : List Nat) (msg : List Nat) : List Nat :=
  let r := fromLeBytes (key.take 16) &&& 0x0ffffffc0ffffffc0ffffffc0fffffff
  let s := fromLeBytes ((key.drop 16).take 16)
  let p := 2 ^ 130 - 5
  let acc := (List.range ((msg.length + 15) / 16)).foldl
    (fun acc i =>
      let chunk := (msg.drop (16 * i)).take 16
      ((acc + fromLeBytes chunk + 2 ^ (8 * chunk.length)) * r) % p) 0
  let tagNum := (acc + s) % 2 ^ 128
  toLe8 (tagNum % 2 ^ 64) ++ toLe8 (tagNum / 2 ^ 64)

/-- The Poly1305 one-time key of an AEAD invocation: the first 32 bytes of
ChaCha20 block 0. -/
def polyKeyOf (key : List Nat) (nonce : List Nat) : List Nat :=
  (chachaBlockBytes key 0 nonce).take 32

/-- Zero padding to the next 16-byte boundary. -/
def pad16Len (n : Nat) : Nat := (16 - n % 16) % 16

/-- The byte string MACed by the AEAD construction (empty AAD case folded in:
the source always passes `Aad::empty()`). -/
def aeadMacData (aad ct : List Nat) : List Nat :=
  aad ++ List.replicate (pad16Len aad.length) 0 ++
    ct ++ List.replicate (pad16Len ct.length) 0 ++
    toLe8 aad.length ++ toLe8 ct.length

/-- AEAD seal (`seal_in_place_append_tag`): ciphertext followed by the
16-byte Poly1305 tag. -/
def chacha20Poly1305Seal (key nonce pt : List Nat) : List Nat :=
  let ct := chachaXor key 1 nonce pt
  ct ++ poly1305 (polyKeyOf key nonce) (aeadMacData [] ct)

/-- AEAD open (`open_in_place`): verify the trailing tag, then decrypt. -/
def chacha20Poly1305Open (key nonce data : List Nat) : Option (List Nat) :=
  if data.length < 16 then none
  else
    let ct := data.take (data.length - 16)
    let tag := data.drop (data.length - 16)
    if poly1305 (polyKeyOf key nonce) (aeadMacData [] ct) = tag then
      some (chachaXor key 1 nonce ct)
    else none

/-! ## xxHash64, executable

`src/fec/frame.rs` hashes FEC frames with `twox_hash::XxHash64::with_seed(0)`
through a sequence of `write` calls; xxHash64 streaming equals the one-shot
hash of the concatenated writes, implemented here from the xxHash
specification. -/

/-- Truncation to a 64-bit word. -/
def w64 (x : Nat) : Nat := x % 18446744073709551616

/-- Left rotation of a 64-bit word. -/
def rotl64 (x n : Nat) : Nat := w64 (x <<< n) + (x >>> (64 - n))

/-- The xxHash64 accumulator round. -/
def xxhRound (acc inp : Nat) : Nat :=
  w64 (rotl64 (w64 (acc + inp * 14029467366897019727)) 31 * 11400714785074694791)

/-- The xxHash64 merge round. -/
def xxhMerge (h v : Nat) : Nat :=
  w64 (w64 ((h ^^^ xxhRound 0 v) * 11400714785074694791) + 9650029242287828579)

/-- The xxHash64 final avalanche. -/
def xxhAvalanche (h0 : Nat) : Nat :=
  let h := h0 ^^^ (h0 >>> 33)
  let h := w64 (h * 14029467366897019727)
  let h := h ^^^ (h >>> 29)
  let h := w64 (h * 1609587929392839161)
  h ^^^ (h >>> 32)

/-- xxHash64 of a byte list under a seed. -/
def xxh64 (seed : Nat) (msg : List Nat) : Nat :=
  let n := msg.length
  let stripes := n / 32
  let h0 :=
    if 32 ≤ n then
      let vs := (List.range stripes).foldl
        (fun (v : Nat × Nat × Nat × Nat) i =>
          let lane := fun j => fromLeBytes ((msg.drop (32 * i + 8 * j)).take 8)
          (xxhRound v.1 (lane 0), xxhRound v.2.1 (lane 1),
           xxhRound v.2.2.1 (lane 2), xxhRound v.2.2.2 (lane 3)))
        (w64 (seed + 11400714785074694791 + 14029467366897019727),
         w64 (seed + 14029467366897019727), w64 seed,
         w64 (seed + 18446744073709551616 - 11400714785074694791))
      let h := w64 (rotl64 vs.1 1 + rotl64 vs.2.1 7 + rotl64 vs.2.2.1 12 +
        rotl64 vs.2.2.2 18)
      xxhMerge (xxhMerge (xxhMerge (xxhMerge h vs.1) vs.2.1) vs.2.2.1) vs.2.2.2
    else w64 (seed + 2870177450012600261)
  let h := w64 (h0 + n)
  let rest := msg.drop (32 * stripes)
  let h := (List.range (rest.length / 8)).foldl
    (fun h i =>
      let k1 := xxhRound 0 (fromLeBytes ((rest.drop (8 * i)).take 8))
      w64 (w64 (rotl64 (h ^^^ k1) 27 * 11400714785074694791) + 9650029242287828579))
    h
  let rest2 := rest.drop (8 * (rest.length / 8))
  let h :=
    if 4 ≤ rest2.length then
      w64 (w64 (rotl64 (h ^^^ w64 (fromLeBytes (rest2.take 4) *
        11400714785074694791)) 23 * 14029467366897019727) + 1609587929392839161)
    else h
  let rest3 := if 4 ≤ rest2.length then rest2.drop 4 else rest2
  let h := rest3.foldl
    (fun h b => w64 (rotl64 (h ^^^ w64 (b * 2870177450012600261)) 11 *
      11400714785074694791)) h
  xxhAvalanche h

/-! ## Dynamic framing (`src/dynamic_framing.rs`)

`SaltGenerator`, `build_dynamic_frame` and `parse_dynamic_frame`. The Rust
functions mutate the generator; here they return the result together with
the new generator. `build_dynamic_frame` draws 32 random bytes when a frame
ratchets; that randomness is an explicit `entropy` argument. A `u64 % 0`
in Rust panics; the model returns the dedicated `PanicDivByZero` value in
exactly the situations the Rust code would panic (`ratchet_interval = 0`
with ratcheting due). -/

/-- Protocol configuration (`SilentConfig`). -/
structure SilentConfig where
  enableSequenceHint : Bool
  enableDoubleRatchet : Bool
  ratchetInterval : Nat
  deriving DecidableEq

/-- The `Default` instance: hint on, ratchet off, interval 1000. -/
def SilentConfig.default : SilentConfig :=
  { enableSequenceHint := true, enableDoubleRatchet := false, ratchetInterval := 1000 }

/-- Error enumeration (`DynamicFramingError`), plus `PanicDivByZero` marking
the inputs on which the Rust code panics on `% 0` instead of returning. -/
inductive DynamicFramingError where
  | EncryptionError
  | DecryptionError
  | InvalidLength (n : Nat)
  | IncompleteData
  | PanicDivByZero
  deriving DecidableEq

/-- Salt generator state (`SaltGenerator`): 32-byte seed and `u64` sequence. -/
structure SaltGenerator where
  seed : List Nat
  sequence : Nat
  deriving DecidableEq

/-- Constructor `SaltGenerator::new`. -/
def SaltGenerator.new (seed : List Nat) : SaltGenerator := { seed := seed, sequence := 0 }

/-- Salt for a given sequence: `SHA256(seed ‖ seq_BE64)`
(`get_salt_for_sequence`; `next_salt` derives this and then increments). -/
def saltFor (seed : List Nat) (seq : Nat) : List Nat := sha256 (seed ++ toBe8 seq)

/-- Rekeying (`mix_entropy`): `seed ← SHA256(seed ‖ entropy)`, sequence kept. -/
def SaltGenerator.mixEntropy (g : SaltGenerator) (entropy : List Nat) : SaltGenerator :=
  { g with seed := sha256 (g.seed ++ entropy) }

/-- The length-obfuscation mask of a salt: `BE32(salt[12..16])`. -/
def maskOf (salt : List Nat) : Nat := fromBeBytes ((salt.drop 12).take 4)

/-- The hint-obfuscation mask of a salt: `BE16(salt[16..18])`. -/
def hintMaskOf (salt : List Nat) : Nat := fromBeBytes ((salt.drop 16).take 2)

/-- The ratchet-frame predicate of `build`/`parse`:
`enable_double_ratchet && s > 0 && s % ratchet_interval == 0`. -/
def isRatchetFrame (cfg : SilentConfig) (s : Nat) : Bool :=
  cfg.enableDoubleRatchet && decide (0 < s) && decide (s % cfg.ratchetInterval = 0)

/-- The inputs on which evaluating the ratchet predicate panics in Rust
(`s % 0` with the first two conjuncts true; `&&` short-circuits). -/
def ratchetPanics (cfg : SilentConfig) (s : Nat) : Bool :=
  cfg.enableDoubleRatchet && decide (0 < s) && decide (cfg.ratchetInterval = 0)

/-- Frame construction (`build_dynamic_frame`): derive the salt for the
current sequence, advance, seal the payload, obfuscate the length, and
assemble `[obf_len][hint?][rekey?][ciphertext ‖ tag]`; a ratchet frame also
mixes the fresh entropy into the seed. -/
def buildDynamicFrame (gen : SaltGenerator) (payload : List Nat) (cfg : SilentConfig)
    (entropy : List Nat) :
    Except DynamicFramingError (List Nat) × SaltGenerator :=
  let s := gen.sequence
  let salt := saltFor gen.seed s
  let gen1 : SaltGenerator := { gen with sequence := s + 1 }
  let buffer := chacha20Poly1305Seal salt (salt.take 12) payload
  let encryptedLen := buffer.length
  if 4294967295 < encryptedLen then (.error (.InvalidLength encryptedLen), gen1)
  else
    let obfuscatedLen := encryptedLen ^^^ maskOf salt
    if ratchetPanics cfg s then (.error .PanicDivByZero, gen1)
    else
      let doRekey := isRatchetFrame cfg s
      let hintPart :=
        if cfg.enableSequenceHint then toBe2 ((s % 65536) ^^^ hintMaskOf salt) else []
      let rekeyPart := if doRekey then entropy else []
      let gen2 := if doRekey then gen1.mixEntropy entropy else gen1
      (.ok (toBe4 obfuscatedLen ++ hintPart ++ rekeyPart ++ buffer), gen2)

/-- The forward resynchronization search of `parse_dynamic_frame`: offsets
`1..=1000`, first sequence whose obfuscated hint matches the received one. -/
def searchSync (seed : List Nat) (currentSeq received : Nat) :
    Option (Nat × List Nat) :=
  (List.range' 1 1000).findSome? (fun offset =>
    let checkSeq := currentSeq + offset
    let checkSalt := saltFor seed checkSeq
    if received = (checkSeq % 65536) ^^^ hintMaskOf checkSalt then
      some (checkSeq, checkSalt)
    else none)

/-- The tail of `parse_dynamic_frame` after the hint has been resolved:
optional entropy extraction and seed mix, length de-obfuscation, bounds
checks, and AEAD opening. `gen` is the generator after the optimistic
advance (and possible resync), `salt` the salt settled on for this frame. -/
def parseAfterHint (gen : SaltGenerator) (data : List Nat) (cfg : SilentConfig)
    (headerSize : Nat) (doRekey : Bool) (salt : List Nat) :
    Except DynamicFramingError (List Nat × Nat) × SaltGenerator :=
  let entropyOffset := if cfg.enableSequenceHint then 6 else 4
  let gen := if doRekey then gen.mixEntropy ((data.drop entropyOffset).take 32) else gen
  let encryptedLen := fromBeBytes (data.take 4) ^^^ maskOf salt
  if 10485760 < encryptedLen then (.error (.InvalidLength encryptedLen), gen)
  else
    let totalFrameSize := headerSize + encryptedLen
    if data.length < totalFrameSize then
      (.error .IncompleteData, { gen with sequence := gen.sequence - 1 })
    else
      match chacha20Poly1305Open salt (salt.take 12)
          ((data.drop headerSize).take encryptedLen) with
      | some payload => (.ok (payload, totalFrameSize), gen)
      | none => (.error .DecryptionError, gen)

/-- Frame parsing (`parse_dynamic_frame`): compute the expected header size,
optimistically advance the sequence, check/resync the sequence hint, then
hand off to `parseAfterHint`. -/
def parseDynamicFrame (gen : SaltGenerator) (data : List Nat) (cfg : SilentConfig) :
    Except DynamicFramingError (List Nat × Nat) × SaltGenerator :=
  let currentSeq := gen.sequence
  if ratchetPanics cfg currentSeq then (.error .PanicDivByZero, gen)
  else
    let doRekey := isRatchetFrame cfg currentSeq
    let headerSize := 4 + (if cfg.enableSequenceHint then 2 else 0) +
      (if doRekey then 32 else 0)
    if data.length < headerSize then (.error .IncompleteData, gen)
    else
      let salt := saltFor gen.seed currentSeq
      let gen1 : SaltGenerator := { gen with sequence := currentSeq + 1 }
      if cfg.enableSequenceHint then
        let received := fromBeBytes ((data.drop 4).take 2)
        let expected := (currentSeq % 65536) ^^^ hintMaskOf salt
        if received = expected then
          parseAfterHint gen1 data cfg headerSize doRekey salt
        else
          match searchSync gen.seed currentSeq received with
          | some (newSeq, newSalt) =>
            let gen2 : SaltGenerator := { gen1 with sequence := newSeq + 1 }
            if ratchetPanics cfg newSeq then (.error .PanicDivByZero, gen2)
            else if isRatchetFrame cfg newSeq ≠ doRekey then
              (.error .DecryptionError, gen2)
            else parseAfterHint gen2 data cfg headerSize doRekey newSalt
          | none => (.error .DecryptionError, { gen1 with sequence := currentSeq })
      else parseAfterHint gen1 data cfg headerSize doRekey salt

/-! ## FEC frames (`src/fec/frame.rs`, prost-generated `FecFrame`)

The `FecFrame` message fields per `whisper.proto` (§6 of the spec):
`session_id : bytes(16)`, `block_index/k/m : uint32`, `payload : bytes`,
`xxhash64 : fixed64`, `block_type : enum{Original=0, Redundant=1}` stored as
`i32`, `version : uint32`. -/

/-- A FEC frame. -/
structure FecFrame where
  sessionId : List Nat
  blockIndex : Nat
  k : Nat
  m : Nat
  payload : List Nat
  xxhash64 : Nat
  blockType : Nat
  version : Nat
  deriving DecidableEq

/-- The prost `block_type()` accessor as a byte: valid enum values map to
themselves, anything else falls back to the default `Original = 0`. -/
def FecFrame.blockTypeByte (f : FecFrame) : Nat := if f.blockType = 1 then 1 else 0

/-- Frame hash (`calculate_frame_hash`): xxHash64 with seed 0 over
`session_id ‖ LE32(block_index) ‖ LE32(k) ‖ LE32(m) ‖ payload ‖ block_type`,
the `xxhash64` field itself excluded. -/
def calculateFrameHash (f : FecFrame) : Nat :=
  xxh64 0 (f.sessionId ++ toLe4 f.blockIndex ++ toLe4 f.k ++ toLe4 f.m ++
    f.payload ++ [f.blockTypeByte])

/-- Integrity check (`validate_frame`). -/
def validateFrame (f : FecFrame) : Bool :=
  decide (calculateFrameHash f = f.xxhash64)

/-- Frame construction (`create_fec_frame`): build with a zero hash, then
fill in the computed hash; `version = 1`. -/
def createFecFrame (sessionId : List Nat) (blockIndex k m : Nat)
    (payload : List Nat) (blockType : Nat) : FecFrame :=
  let f : FecFrame :=
    { sessionId := sessionId, blockIndex := blockIndex, k := k, m := m,
      payload := payload, xxhash64 := 0, blockType := blockType, version := 1 }
  { f with xxhash64 := calculateFrameHash f }

/-! ## FEC encoder (`src/fec/encoder.rs`)

`FECEncoder::encode` with the fresh `Uuid::new_v4` session id as an explicit
argument. The Reed-Solomon parity computation lives in the external
`reed_solomon_erasure` crate; only its interface contract is modelled. -/

/-- Modelled from the `reed_solomon_erasure` contract: `encode` fills the m
parity shards from the k data shards so that any k of the k+m shards
determine all of them. The parity bytes themselves (GF(256) arithmetic
internal to the external crate) are not modelled — no theorem below depends
on a parity shard's contents — so the parity shards are left as the zero
buffers the caller pre-allocates for them. -/
def rsEncodeParity (m blockSize : Nat) (_dataShards : List (List Nat)) :
    List (List Nat) :=
  List.replicate m (List.replicate blockSize 0)

/-- Data splitting (`split_into_blocks`): k blocks of `block_size` bytes,
zero-padded. -/
def splitIntoBlocks (k : Nat) (data : List Nat) (blockSize : Nat) :
    List (List Nat) :=
  (List.range k).map (fun i =>
    let piece := (data.drop (i * blockSize)).take blockSize
    piece ++ List.replicate (blockSize - piece.length) 0)

/-- Encoding (`FECEncoder::encode`): prepend the `LE32` length of the input,
split into k blocks of the 64-byte-aligned minimal block size, compute
parity, and emit k `Original` frames followed by m `Redundant` frames with
indices `0..k+m`. -/
def fecEncode (k m : Nat) (sessionId : List Nat) (data : List Nat) :
    List FecFrame :=
  let framedData := toLe4 (data.length % 4294967296) ++ data
  let totalSize := framedData.length
  let minBlockSize := (totalSize + k - 1) / k
  let blockSize := (minBlockSize + 63) / 64 * 64
  let blocks := splitIntoBlocks k framedData blockSize
  let parity := rsEncodeParity m blockSize blocks
  (blocks.zip (List.range k)).map (fun p =>
    createFecFrame sessionId p.2 k m p.1 0) ++
  (parity.zip (List.range m)).map (fun p =>
    createFecFrame sessionId (k + p.2) k m p.1 1)

/-! ## FEC reassembler (`src/fec/reassembler.rs`)

`HashMap`s become association lists with keyed in-place update (`updateA`),
the order-free abstraction of a hash map; `Instant` becomes `Nat`. The
floating-point smoothed `average_recovery_time_ms` statistic is omitted
(`update_average_recovery_time` touches only it). -/

/-- Keyed lookup in an association list. -/
def lookupA {α : Type} (l : List (Nat × α)) (k : Nat) : Option α :=
  match l with
  | [] => none
  | (k0, v) :: rest => if k0 = k then some v else lookupA rest k

/-- Keyed in-place update of an association list: replace the entry if the
key is present, append it otherwise. -/
def updateA {α : Type} (l : List (Nat × α)) (k : Nat) (v : α) : List (Nat × α) :=
  match l with
  | [] => [(k, v)]
  | (k0, v0) :: rest => if k0 = k then (k, v) :: rest else (k0, v0) :: updateA rest k v

/-- Keyed removal from an association list. -/
def eraseA {α : Type} (l : List (Nat × α)) (k : Nat) : List (Nat × α) :=
  match l with
  | [] => []
  | (k0, v0) :: rest => if k0 = k then rest else (k0, v0) :: eraseA rest k

/-- Keyed lookup with a `List Nat` key (FEC session ids are 16 raw bytes). -/
def lookupS {α : Type} (l : List (List Nat × α)) (k : List Nat) : Option α :=
  match l with
  | [] => none
  | (k0, v) :: rest => if k0 = k then some v else lookupS rest k

/-- Keyed in-place update with a `List Nat` key. -/
def updateS {α : Type} (l : List (List Nat × α)) (k : List Nat) (v : α) :
    List (List Nat × α) :=
  match l with
  | [] => [(k, v)]
  | (k0, v0) :: rest => if k0 = k then (k, v) :: rest else (k0, v0) :: updateS rest k v

/-- FEC session state (`SessionState`). -/
inductive SessionState where
  | Collecting (receivedBlocks : List (Nat × List Nat)) (receivedCount : Nat)
      (startTime : Nat)
  | Decoding
  | Completed (originalData : List Nat) (recoveryTime : Nat)
  | Failed (reason : String) (failureTime : Nat)
  deriving DecidableEq

/-- Reassembler statistics (`ReassemblerStats`), without the floating-point
average-recovery-time field. -/
structure ReassemblerStats where
  totalSessions : Nat
  successfulRecoveries : Nat
  failedRecoveries : Nat
  pendingSessions : Nat
  deriving DecidableEq

/-- A recovered message (`RecoveredMessage`). -/
structure RecoveredMessage where
  sessionId : List Nat
  originalData : List Nat
  recoveryTime : Nat
  blocksUsed : Nat
  blocksTotal : Nat
  deriving DecidableEq

/-- Reassembler state: the fields of `FECReassembler` with its
`SessionManager` flattened in. -/
structure ReassemblerState where
  sessions : List (List Nat × SessionState)
  sessionTimeout : Nat
  sessionCleanupTimeout : Nat
  stats : ReassemblerStats
  pendingMessages : List RecoveredMessage
  k : Nat
  m : Nat
  deriving DecidableEq

/-- Constructor (`FECReassembler::new`): 30 s session timeout, 300 s cleanup
timeout (times in seconds). -/
def ReassemblerState.new (k m : Nat) : ReassemblerState :=
  { sessions := [], sessionTimeout := 30, sessionCleanupTimeout := 300,
    stats := ⟨0, 0, 0, 0⟩, pendingMessages := [], k := k, m := m }

/-- Modelled from the `reed_solomon_erasure` contract: `reconstruct` fails
when fewer than k shards are present, and otherwise succeeds leaving every
present shard unchanged and filling each missing one with the unique
Reed-Solomon completion. The completion's bytes (GF(256) arithmetic internal
to the external crate) are not modelled — no theorem below depends on the
contents of a reconstructed missing shard — so missing shards are filled
with empty buffers. -/
def rsReconstruct (k : Nat) (shards : List (Option (List Nat))) :
    Except String (List (Option (List Nat))) :=
  if (shards.filter Option.isSome).length < k then .error "too few shards"
  else .ok (shards.map (fun s => some (s.getD [])))

/-- Static decoding (`decode_fec_data`): place the received blocks into a
k+m slot array (rejecting out-of-range indices), require at least k present,
reconstruct, and concatenate the data shards `[0..k)`. -/
def decodeFecData (receivedBlocks : List (Nat × List Nat)) (k m : Nat) :
    Except String (List Nat) :=
  let totalShards := k + m
  if receivedBlocks.any (fun p => totalShards ≤ p.1) then .error "invalid block index"
  else
    let shards : List (Option (List Nat)) :=
      (List.range totalShards).map (fun i => lookupA receivedBlocks i)
    let totalReceived := (shards.filter Option.isSome).length
    if totalReceived < k then .error "not enough data"
    else
      match rsReconstruct k shards with
      | .error e => .error e
      | .ok reconstructed =>
        let originalData :=
          ((List.range k).map (fun i => (reconstructed.getD i none).getD [])).flatten
        if originalData.isEmpty then .error "empty recovery" else .ok originalData

/-- The operation instruction returned by session management
(`SessionOperation`). -/
inductive SessionOperation where
  | NoOp
  | DecodeRequired (sessionId : List Nat) (blocks : List (Nat × List Nat))
      (receivedCount : Nat) (startTime : Nat) (k : Nat) (m : Nat)

/-- Handling of a frame for an existing session
(`SessionManager::handle_existing_session`): duplicate indices and
non-`Collecting` states are no-ops; the k-th distinct block switches the
session to `Decoding` and requests a decode. -/
def handleExistingSession (sessionId : List Nat) (state : SessionState)
    (frame : FecFrame) : SessionState × SessionOperation :=
  match state with
  | .Collecting receivedBlocks receivedCount startTime =>
    if (lookupA receivedBlocks frame.blockIndex).isSome then
      (.Collecting receivedBlocks receivedCount startTime, .NoOp)
    else
      let receivedBlocks := updateA receivedBlocks frame.blockIndex frame.payload
      let receivedCount := receivedCount + 1
      if frame.k ≤ receivedCount then
        (.Decoding,
         .DecodeRequired sessionId receivedBlocks receivedCount startTime frame.k frame.m)
      else (.Collecting receivedBlocks receivedCount startTime, .NoOp)
  | .Completed d t => (.Completed d t, .NoOp)
  | .Failed r t => (.Failed r t, .NoOp)
  | .Decoding => (.Decoding, .NoOp)

/-- Handling of the first frame of a session
(`SessionManager::handle_new_session`): open a `Collecting` session holding
the single block and bump the session statistics. -/
def handleNewSession (r : ReassemblerState) (sessionId : List Nat)
    (frame : FecFrame) (now : Nat) : ReassemblerState :=
  { r with
    sessions := updateS r.sessions sessionId
      (.Collecting [(frame.blockIndex, frame.payload)] 1 now),
    stats := { r.stats with
                 totalSessions := r.stats.totalSessions + 1,
                 pendingSessions := r.stats.pendingSessions + 1 } }

/-- Frame dispatch (`SessionManager::process_new_frame`); the Rust
`remove`-then-`insert` on the sessions `HashMap` is the keyed update. -/
def processNewFrame (r : ReassemblerState) (sessionId : List Nat)
    (frame : FecFrame) (now : Nat) : ReassemblerState × SessionOperation :=
  match lookupS r.sessions sessionId with
  | some state =>
    let (newState, operation) := handleExistingSession sessionId state frame
    ({ r with sessions := updateS r.sessions sessionId newState }, operation)
  | none => (handleNewSession r sessionId frame now, .NoOp)

/-- `SessionManager::mark_session_completed`. -/
def markSessionCompleted (r : ReassemblerState) (sessionId : List Nat)
    (originalData : List Nat) (recoveryTime : Nat) : ReassemblerState :=
  match lookupS r.sessions sessionId with
  | some _ =>
    { r with
      sessions := updateS r.sessions sessionId (.Completed originalData recoveryTime),
      stats := { r.stats with
                   successfulRecoveries := r.stats.successfulRecoveries + 1,
                   pendingSessions := r.stats.pendingSessions - 1 } }
  | none => r

/-- `SessionManager::mark_session_failed`. -/
def markSessionFailed (r : ReassemblerState) (sessionId : List Nat)
    (reason : String) (now : Nat) : ReassemblerState :=
  match lookupS r.sessions sessionId with
  | some _ =>
    { r with
      sessions := updateS r.sessions sessionId (.Failed reason now),
      stats := { r.stats with
                   failedRecoveries := r.stats.failedRecoveries + 1,
                   pendingSessions := r.stats.pendingSessions - 1 } }
  | none => r

/-- `SessionManager::restore_to_collecting`. -/
def restoreToCollecting (r : ReassemblerState) (sessionId : List Nat)
    (blocks : List (Nat × List Nat)) (receivedCount startTime : Nat) :
    ReassemblerState :=
  match lookupS r.sessions sessionId with
  | some _ =>
    { r with sessions :=
        updateS r.sessions sessionId (.Collecting blocks receivedCount startTime) }
  | none => r

/-- Decoding driver (`FECReassembler::perform_decoding`): on success record
and queue the `RecoveredMessage`; on failure either fail the session (past
the timeout) or restore it to `Collecting` with its accumulated blocks. -/
def performDecoding (r : ReassemblerState) (sessionId : List Nat)
    (blocks : List (Nat × List Nat)) (receivedCount startTime k m : Nat)
    (frame : FecFrame) (now : Nat) :
    Except String (Option RecoveredMessage) × ReassemblerState :=
  match decodeFecData blocks k m with
  | .ok originalData =>
    let message : RecoveredMessage :=
      { sessionId := sessionId, originalData := originalData, recoveryTime := now,
        blocksUsed := receivedCount, blocksTotal := frame.k + frame.m }
    let r := markSessionCompleted r sessionId originalData now
    (.ok (some message), { r with pendingMessages := r.pendingMessages ++ [message] })
  | .error e =>
    if r.sessionTimeout < now - startTime then
      (.error e, markSessionFailed r sessionId e now)
    else
      (.ok none, restoreToCollecting r sessionId blocks receivedCount startTime)

/-- Main entry (`FECReassembler::process_fec_frame`): validate the 16-byte
session id, run session management, and decode when instructed. -/
def processFecFrame (r : ReassemblerState) (frame : FecFrame) (now : Nat) :
    Except String (Option RecoveredMessage) × ReassemblerState :=
  if frame.sessionId.length ≠ 16 then (.error "invalid session id", r)
  else
    match processNewFrame r frame.sessionId frame now with
    | (r, .NoOp) => (.ok none, r)
    | (r, .DecodeRequired sessionId blocks receivedCount startTime k m) =>
      performDecoding r sessionId blocks receivedCount startTime k m frame now

/-! ## Stream pool (`src/stream/pool.rs`)

`HashMap<u64, StreamState>` and the two `HashSet<u64>` become association
lists / membership lists (order-free hash containers); `Instant` becomes a
`Nat` supplied by each operation; `VecDeque` is a list with front pops and
back pushes. -/

/-- Stream slot state (`StreamState`). -/
inductive StreamState where
  | Free
  | HighPriority
  | LowPriority
  | Closing
  deriving DecidableEq

/-- Membership-list insertion (`HashSet::insert`). -/
def insertSet (l : List Nat) (id : Nat) : List Nat := if id ∈ l then l else id :: l

/-- Membership-list removal (`HashSet::remove` / `Vec::retain`). -/
def removeSet (l : List Nat) (id : Nat) : List Nat := l.filter (fun x => x ≠ id)

/-- The pool state (`StreamPool`). -/
structure PoolState where
  streamStates : List (Nat × StreamState)
  freeStreams : List Nat
  highPriorityStreams : List Nat
  lowPriorityStreams : List Nat
  nextStreamId : Nat
  maxStreams : Nat
  idleTimeout : Nat
  lastActivity : List (Nat × Nat)
  deriving DecidableEq

/-- Constructor (`StreamPool::new`): 30 s idle timeout (times in seconds). -/
def PoolState.new (maxStreams : Nat) : PoolState :=
  { streamStates := [], freeStreams := [], highPriorityStreams := [],
    lowPriorityStreams := [], nextStreamId := 0, maxStreams := maxStreams,
    idleTimeout := 30, lastActivity := [] }

/-- `StreamPool::update_activity`. -/
def PoolState.updateActivity (p : PoolState) (id now : Nat) : PoolState :=
  { p with lastActivity := updateA p.lastActivity id now }

/-- `StreamPool::mark_stream_used`. -/
def PoolState.markStreamUsed (p : PoolState) (id : Nat) (isHigh : Bool) : PoolState :=
  if isHigh then
    { p with streamStates := updateA p.streamStates id .HighPriority,
             highPriorityStreams := insertSet p.highPriorityStreams id }
  else
    { p with streamStates := updateA p.streamStates id .LowPriority,
             lowPriorityStreams := insertSet p.lowPriorityStreams id }

/-- The comparison used on `Option<Instant>` keys by
`min_by_key` (`None` sorts before `Some`, Rust `Ord` on `Option`). -/
def optKeyLt (a b : Option Nat) : Bool :=
  match a, b with
  | none, none => false
  | none, some _ => true
  | some _, none => false
  | some x, some y => decide (x < y)

/-- `StreamPool::find_stream_to_preempt`: the LRU low-priority stream,
`min_by_key` over the low set keyed by `last_activity` (first minimum kept). -/
def PoolState.findStreamToPreempt (p : PoolState) : Option Nat :=
  match p.lowPriorityStreams with
  | [] => none
  | x :: xs => some (xs.foldl
      (fun best cand =>
        if optKeyLt (lookupA p.lastActivity cand) (lookupA p.lastActivity best)
        then cand else best) x)

/-- `StreamPool::preempt_stream`: relabel a low slot as high. -/
def PoolState.preemptStream (p : PoolState) (id : Nat) : PoolState :=
  { p with streamStates := updateA p.streamStates id .HighPriority,
           lowPriorityStreams := removeSet p.lowPriorityStreams id,
           highPriorityStreams := insertSet p.highPriorityStreams id }

/-- `StreamPool::acquire_stream`: pop a free slot, else mint a new id under
the cap, else preempt the LRU low slot for high-priority requests. -/
def PoolState.acquireStream (p : PoolState) (isHigh : Bool) (now : Nat) :
    Option Nat × PoolState :=
  match p.freeStreams with
  | id :: rest =>
    let p := { p with freeStreams := rest }
    (some id, ((p.markStreamUsed id isHigh).updateActivity id now))
  | [] =>
    if p.streamStates.length < p.maxStreams then
      let id := p.nextStreamId
      let p := { p with nextStreamId := id + 4,
                        streamStates := updateA p.streamStates id .Free }
      (some id, ((p.markStreamUsed id isHigh).updateActivity id now))
    else if isHigh ∧ p.lowPriorityStreams ≠ [] then
      match p.findStreamToPreempt with
      | some id => (some id, ((p.preemptStream id).updateActivity id now))
      | none => (none, p)
    else (none, p)

/-- `StreamPool::release_stream`: move a used slot back to the free queue;
free, closing or unknown slots are left untouched. -/
def PoolState.releaseStream (p : PoolState) (id now : Nat) : PoolState :=
  match lookupA p.streamStates id with
  | some .HighPriority =>
    { p with highPriorityStreams := removeSet p.highPriorityStreams id,
             streamStates := updateA p.streamStates id .Free,
             freeStreams := p.freeStreams ++ [id],
             lastActivity := updateA p.lastActivity id now }
  | some .LowPriority =>
    { p with lowPriorityStreams := removeSet p.lowPriorityStreams id,
             streamStates := updateA p.streamStates id .Free,
             freeStreams := p.freeStreams ++ [id],
             lastActivity := updateA p.lastActivity id now }
  | _ => p

/-- `StreamPool::close_stream`: remove the slot from every index. -/
def PoolState.closeStream (p : PoolState) (id : Nat) : PoolState :=
  { p with streamStates := eraseA p.streamStates id,
           freeStreams := removeSet p.freeStreams id,
           highPriorityStreams := removeSet p.highPriorityStreams id,
           lowPriorityStreams := removeSet p.lowPriorityStreams id,
           lastActivity := eraseA p.lastActivity id }

/-- `StreamPool::cleanup_idle_streams`: close every `Free` slot idle past
the timeout. -/
def PoolState.cleanupIdleStreams (p : PoolState) (now : Nat) : PoolState :=
  let toRemove := (p.lastActivity.filter (fun e =>
    p.idleTimeout < now - e.2 ∧ lookupA p.streamStates e.1 = some .Free)).map Prod.fst
  toRemove.foldl (fun q id => q.closeStream id) p

/-- The pool's public operations, each tagged with the `Instant::now()` it
observes, for reachability statements. -/
inductive PoolOp where
  | acquire (isHigh : Bool) (now : Nat)
  | release (id now : Nat)
  | close (id : Nat)
  | cleanup (now : Nat)

/-- Application of one pool operation (results discarded). -/
def applyPoolOp (p : PoolState) (op : PoolOp) : PoolState :=
  match op with
  | .acquire isHigh now => (p.acquireStream isHigh now).2
  | .release id now => p.releaseStream id now
  | .close id => p.closeStream id
  | .cleanup now => p.cleanupIdleStreams now

/-- A pool state reached from `StreamPool::new` by a call sequence. -/
def runPool (maxStreams : Nat) (ops : List PoolOp) : PoolState :=
  ops.foldl applyPoolOp (PoolState.new maxStreams)

/-! ## Stream scheduler (`src/stream/scheduler.rs`)

The FEC session `Uuid` keys are abstracted to `Nat` (opaque identifiers);
`HashMap<Priority, VecDeque<FECTask>>` becomes one list per priority (the
constructor initializes all four); `Instant` becomes explicit `now`
arguments. The `starvation_counter` field is initialized and never read or
written by any method, and is omitted. -/

/-- Message priority (`Priority`, prost values Low=0 Normal=1 High=2
Urgent=3). -/
inductive Priority where
  | Low
  | Normal
  | High
  | Urgent
  deriving DecidableEq

/-- The prost numeric value of a priority, carrying the derived `Ord`. -/
def Priority.val : Priority → Nat
  | .Low => 0
  | .Normal => 1
  | .High => 2
  | .Urgent => 3

/-- `is_high_priority`: High and Urgent. -/
def isHighPriority (p : Priority) : Bool :=
  match p with
  | .High | .Urgent => true
  | _ => false

/-- A pending FEC task (`FECTask`). -/
structure FECTask where
  frames : List FecFrame
  sessionId : Nat
  priority : Priority
  enqueueTime : Nat
  deriving DecidableEq

/-- An active FEC session (`ActiveSession`). -/
structure ActiveSession where
  sentFrames : Nat
  totalFrames : Nat
  assignedStreams : List Nat
  startTime : Nat
  deriving DecidableEq

/-- The four pending-task queues. -/
structure PendingQueues where
  low : List FECTask
  normal : List FECTask
  high : List FECTask
  urgent : List FECTask
  deriving DecidableEq

/-- Queue selection by priority. -/
def PendingQueues.get (q : PendingQueues) : Priority → List FECTask
  | .Low => q.low
  | .Normal => q.normal
  | .High => q.high
  | .Urgent => q.urgent

/-- Queue replacement by priority. -/
def PendingQueues.set (q : PendingQueues) (p : Priority) (l : List FECTask) :
    PendingQueues :=
  match p with
  | .Low => { q with low := l }
  | .Normal => { q with normal := l }
  | .High => { q with high := l }
  | .Urgent => { q with urgent := l }

/-- The scheduler state (`StreamScheduler`). -/
structure SchedState where
  pool : PoolState
  pendingTasks : PendingQueues
  activeSessions : List (Nat × ActiveSession)
  maxWaitTime : Nat
  lastPriorityBoost : Nat
  deriving DecidableEq

/-- Constructor (`StreamScheduler::new`) at creation instant `now`:
10 s max wait (times in seconds). -/
def SchedState.new (maxStreamsPerConnection now : Nat) : SchedState :=
  { pool := PoolState.new maxStreamsPerConnection,
    pendingTasks := ⟨[], [], [], []⟩, activeSessions := [],
    maxWaitTime := 10, lastPriorityBoost := now }

/-- `StreamScheduler::submit_fec_task`: append to the matching queue. -/
def SchedState.submitFecTask (s : SchedState) (frames : List FecFrame)
    (sessionId : Nat) (priority : Priority) (now : Nat) : SchedState :=
  { s with
    pendingTasks := s.pendingTasks.set priority
      (s.pendingTasks.get priority ++
        [{ frames := frames, sessionId := sessionId, priority := priority,
           enqueueTime := now }]) }

/-- `StreamScheduler::resubmit_with_higher_priority`: promote below-High
tasks one class, reset the enqueue time, push to the front of the target
queue. -/
def SchedState.resubmitWithHigherPriority (s : SchedState) (task : FECTask)
    (now : Nat) : SchedState :=
  let task :=
    if task.priority.val < Priority.High.val then
      { task with priority :=
          match task.priority with
          | .Low => .Normal
          | .Normal => .High
          | p => p }
    else task
  let task := { task with enqueueTime := now }
  { s with
    pendingTasks := s.pendingTasks.set task.priority
      (task :: s.pendingTasks.get task.priority) }

/-- `StreamScheduler::check_starvation`: at most once per 5 s, if the head
of the Low (then Normal) queue has waited past `max_wait_time`, move every
task of that queue to the next class. -/
def SchedState.checkStarvation (s : SchedState) (now : Nat) : SchedState :=
  if now - s.lastPriorityBoost < 5 then s
  else
    let boost := fun (s : SchedState) (priority : Priority) =>
      match s.pendingTasks.get priority with
      | [] => s
      | front :: _ =>
        if s.maxWaitTime < now - front.enqueueTime then
          let newPriority : Priority :=
            match priority with
            | .Low => .Normal
            | _ => .High
          let moved := (s.pendingTasks.get priority).map
            (fun t => { t with priority := newPriority })
          let q1 := s.pendingTasks.set priority []
          { s with pendingTasks := q1.set newPriority (q1.get newPriority ++ moved) }
        else s
    let s := boost s .Low
    let s := boost s .Normal
    { s with lastPriorityBoost := now }

/-- The greedy per-frame stream acquisition of `try_send` step (b): one
stream per frame, stopping at the first allocation failure. -/
def acquireLoop (pool : PoolState) (frames : List FecFrame) (isHigh : Bool)
    (now : Nat) : List (Nat × FecFrame) × List Nat × PoolState :=
  match frames with
  | [] => ([], [], pool)
  | frame :: rest =>
    match pool.acquireStream isHigh now with
    | (some streamId, pool) =>
      let (pairs, streams, pool) := acquireLoop pool rest isHigh now
      ((streamId, frame) :: pairs, streamId :: streams, pool)
    | (none, pool) => ([], [], pool)

/-- Processing of one drained task inside `try_send`: stale tasks are
promoted and re-queued; otherwise acquire streams greedily, record the
`ActiveSession` (a keyed insert — overwriting any previous record for the
session), emit the dispatched pairs, and retain unsent frames. -/
def processTask (s : SchedState) (result : List (Nat × FecFrame))
    (remaining : List FECTask) (priority : Priority) (task : FECTask)
    (now : Nat) : SchedState × List (Nat × FecFrame) × List FECTask :=
  if s.maxWaitTime < now - task.enqueueTime then
    (s.resubmitWithHigherPriority task now, result, remaining)
  else
    let totalFrames := task.frames.length
    let (framesToSend, streamsAssigned, pool) :=
      acquireLoop s.pool task.frames (isHighPriority priority) now
    let sentCount := framesToSend.length
    let s := { s with pool := pool }
    if 0 < sentCount then
      let s := { s with
        activeSessions := updateA s.activeSessions task.sessionId
          { sentFrames := sentCount, totalFrames := totalFrames,
            assignedStreams := streamsAssigned, startTime := now } }
      let result := result ++ framesToSend
      if sentCount < totalFrames then
        (s, result, remaining ++ [{ task with frames := task.frames.drop sentCount }])
      else (s, result, remaining)
    else (s, result, remaining ++ [task])

/-- One priority pass of `try_send`: drain the queue, process each task,
push the retained tasks back. -/
def trySendPriority (acc : SchedState × List (Nat × FecFrame)) (priority : Priority)
    (now : Nat) : SchedState × List (Nat × FecFrame) :=
  let (s, result) := acc
  let tasksToProcess := s.pendingTasks.get priority
  let s := { s with pendingTasks := s.pendingTasks.set priority [] }
  let (s, result, remaining) := tasksToProcess.foldl
    (fun (acc : SchedState × List (Nat × FecFrame) × List FECTask) task =>
      processTask acc.1 acc.2.1 acc.2.2 priority task now)
    (s, result, [])
  ({ s with
     pendingTasks := s.pendingTasks.set priority
       (s.pendingTasks.get priority ++ remaining) }, result)

/-- `StreamScheduler::try_send`: starvation check, the four priority passes
in descending order, then idle-stream cleanup. -/
def SchedState.trySend (s : SchedState) (now : Nat) :
    List (Nat × FecFrame) × SchedState :=
  let s := s.checkStarvation now
  let (s, result) := [Priority.Urgent, Priority.High, Priority.Normal, Priority.Low]
    |>.foldl (fun acc priority => trySendPriority acc priority now) (s, [])
  (result, { s with pool := s.pool.cleanupIdleStreams now })

/-- `StreamScheduler::mark_frame_sent`: release a single stream. -/
def SchedState.markFrameSent (s : SchedState) (streamId now : Nat) : SchedState :=
  { s with pool := s.pool.releaseStream streamId now }

/-- `StreamScheduler::mark_session_complete`: release every stream recorded
in the session's `ActiveSession` entry and drop the entry. -/
def SchedState.markSessionComplete (s : SchedState) (sessionId now : Nat) :
    SchedState :=
  match lookupA s.activeSessions sessionId with
  | some session =>
    { s with activeSessions := eraseA s.activeSessions sessionId,
             pool := session.assignedStreams.foldl
               (fun pool streamId => pool.releaseStream streamId now) s.pool }
  | none => s

/-! ## Library lemmas: AEAD round-trip and length facts -/

theorem bytesToWordsLe_length (l : List Nat) :
    (bytesToWordsLe l).length = l.length / 4 := by
  simp [bytesToWordsLe]

theorem chachaInitState_length (key nonce : List Nat) (counter : Nat)
    (hk : 32 ≤ key.length) (hn : 12 ≤ nonce.length) :
    (chachaInitState key counter nonce).length = 16 := by
  simp [chachaInitState, bytesToWordsLe_length, List.length_take]
  omega

theorem chachaQuarter_length (st : List Nat) (a b c d : Nat) :
    (chachaQuarter st a b c d).length = st.length := by
  simp [chachaQuarter]

theorem chachaDoubleRound_length (st : List Nat) :
    (chachaDoubleRound st).length = st.length := by
  simp [chachaDoubleRound, chachaQuarter_length]

theorem chachaBlockBytes_length (key : List Nat) (counter : Nat) (nonce : List Nat)
    (hk : 32 ≤ key.length) (hn : 12 ≤ nonce.length) :
    (chachaBlockBytes key counter nonce).length = 64 := by
  have hrounds : ∀ (n : Nat) (st : List Nat),
      ((List.range n).foldl (fun s _ => chachaDoubleRound s) st).length = st.length := by
    intro n
    induction n with
    | zero => intro st; rfl
    | succ k ih =>
      intro st
      rw [List.range_succ, List.foldl_append]
      simp [ih, chachaDoubleRound_length]
  have hinit := chachaInitState_length key nonce counter hk hn
  have hflat : ∀ l : List Nat, (l.flatMap toLe4).length = 4 * l.length := by
    intro l
    induction l with
    | nil => rfl
    | cons x xs ih => simp [List.flatMap_cons, ih, toLe4]; omega
  simp only [chachaBlockBytes, hflat, List.length_map, List.length_zip, hrounds, hinit]
  rfl

theorem chachaKeystream_length (key : List Nat) (counter : Nat) (nonce : List Nat)
    (n : Nat) (hk : 32 ≤ key.length) (hn : 12 ≤ nonce.length) :
    (chachaKeystream key counter nonce n).length = n := by
  have hblocks : ∀ (l : List Nat),
      (l.flatMap (fun i => chachaBlockBytes key (counter + i) nonce)).length =
        64 * l.length := by
    intro l
    induction l with
    | nil => rfl
    | cons x xs ih =>
      simp [List.flatMap_cons, ih, chachaBlockBytes_length key _ nonce hk hn]
      omega
  have hge : n ≤ 64 * ((n + 63) / 64) := by
    have h1 := Nat.div_add_mod (n + 63) 64
    have h2 : (n + 63) % 64 < 64 := Nat.mod_lt _ (by omega)
    omega
  simp [chachaKeystream, List.length_take, hblocks, hge]

theorem chachaXor_length (key : List Nat) (counter : Nat) (nonce data : List Nat)
    (hk : 32 ≤ key.length) (hn : 12 ≤ nonce.length) :
    (chachaXor key counter nonce data).length = data.length := by
  simp [chachaXor, chachaKeystream_length key counter nonce data.length hk hn]

theorem zipWith_xor_cancel (data ks : List Nat) (h : data.length ≤ ks.length) :
    List.zipWith Nat.xor (List.zipWith Nat.xor data ks) ks = data := by
  induction data generalizing ks with
  | nil => simp
  | cons x xs ih =>
    cases ks with
    | nil => simp at h
    | cons k krest =>
      simp only [List.zipWith_cons_cons, List.length_cons] at h ⊢
      rw [ih krest (by omega)]
      simpa using Nat.xor_cancel_right k x

theorem chachaXor_involution (key : List Nat) (counter : Nat) (nonce data : List Nat)
    (hk : 32 ≤ key.length) (hn : 12 ≤ nonce.length) :
    chachaXor key counter nonce (chachaXor key counter nonce data) = data := by
  have hlen := chachaXor_length key counter nonce data hk hn
  conv_lhs => rw [chachaXor, hlen]
  rw [chachaXor]
  exact zipWith_xor_cancel data _
    (by rw [chachaKeystream_length key counter nonce data.length hk hn])

theorem seal_length (key nonce pt : List Nat) (hk : 32 ≤ key.length)
    (hn : 12 ≤ nonce.length) :
    (chacha20Poly1305Seal key nonce pt).length = pt.length + 16 := by
  have hct := chachaXor_length key 1 nonce pt hk hn
  have htag : ∀ k msg, (poly1305 k msg).length = 16 := by
    intro k msg
    simp [poly1305, toLe8, toLe4]
  simp [chacha20Poly1305Seal, hct, htag]

theorem open_seal (key nonce pt : List Nat) (hk : 32 ≤ key.length)
    (hn : 12 ≤ nonce.length) :
    chacha20Poly1305Open key nonce (chacha20Poly1305Seal key nonce pt) = some pt := by
  have hct := chachaXor_length key 1 nonce pt hk hn
  have hlen := seal_length key nonce pt hk hn
  have htag : ∀ k msg, (poly1305 k msg).length = 16 := by
    intro k msg
    simp [poly1305, toLe8, toLe4]
  simp only [chacha20Poly1305Open, hlen]
  rw [if_neg (by omega)]
  have hsplit : pt.length + 16 - 16 = (chachaXor key 1 nonce pt).length := by omega
  simp only [chacha20Poly1305Seal, hsplit, List.take_left, List.drop_left]
  simp [chachaXor_involution key 1 nonce pt hk hn]

theorem sha256Round_length (st : List Nat) (kw : Nat × Nat) :
    (sha256Round st kw).length = 8 := rfl

theorem sha256Compress_length (h chunk : List Nat) (hh : h.length = 8) :
    (sha256Compress h chunk).length = 8 := by
  have hst : ∀ (l : List (Nat × Nat)) (acc : List Nat), acc.length = 8 →
      (l.foldl sha256Round acc).length = 8 := by
    intro l
    induction l with
    | nil => intro acc ha; simpa using ha
    | cons x xs ih => intro acc ha; exact ih _ (sha256Round_length acc x)
  simp [sha256Compress, List.length_zip, hh, hst _ h hh]

theorem sha256_length (msg : List Nat) : (sha256 msg).length = 32 := by
  have hfinal : ∀ (l : List Nat) (acc : List Nat), acc.length = 8 →
      (l.foldl (fun h i => sha256Compress h (((msg ++ [128] ++
        List.replicate ((119 - msg.length % 64) % 64) 0 ++
        toBe8 (msg.length * 8)).drop (64 * i)).take 64)) acc).length = 8 := by
    intro l
    induction l with
    | nil => intro acc ha; simpa using ha
    | cons x xs ih => intro acc ha; exact ih _ (sha256Compress_length _ _ ha)
  have hflat : ∀ l : List Nat, (l.flatMap toBe4).length = 4 * l.length := by
    intro l
    induction l with
    | nil => rfl
    | cons x xs ih => simp [List.flatMap_cons, ih, toBe4]; omega
  simp only [sha256, hflat, hfinal _ sha256Init rfl]

theorem sha256_mem_lt (msg : List Nat) (b : Nat) (hb : b ∈ sha256 msg) : b < 256 := by
  simp only [sha256, List.mem_flatMap] at hb
  obtain ⟨w, _, hw⟩ := hb
  exact toBe4_mem_lt w b hw

theorem saltFor_length (seed : List Nat) (seq : Nat) :
    (saltFor seed seq).length = 32 := sha256_length _

theorem saltFor_mem_lt (seed : List Nat) (seq b : Nat) (hb : b ∈ saltFor seed seq) :
    b < 256 := sha256_mem_lt _ b hb

theorem maskOf_lt (salt : List Nat) (hl : salt.length = 32)
    (hb : ∀ b ∈ salt, b < 256) : maskOf salt < 4294967296 := by
  have h4 : ((salt.drop 12).take 4).length = 4 := by
    simp [List.length_take, List.length_drop, hl]
  have hmem : ∀ b ∈ (salt.drop 12).take 4, b < 256 := by
    intro b hbmem
    exact hb b (List.mem_of_mem_drop (List.mem_of_mem_take hbmem))
  match he : (salt.drop 12).take 4 with
  | [a, b, c, d] =>
    rw [maskOf, he]
    exact fromBe4_lt a b c d (hmem a (he ▸ by simp)) (hmem b (he ▸ by simp))
      (hmem c (he ▸ by simp)) (hmem d (he ▸ by simp))
  | [] => rw [he] at h4; simp at h4
  | [a] => rw [he] at h4; simp at h4
  | [a, b] => rw [he] at h4; simp at h4
  | [a, b, c] => rw [he] at h4; simp at h4
  | a :: b :: c :: d :: e :: rest => rw [he] at h4; simp at h4

theorem hintMaskOf_lt (salt : List Nat) (hl : salt.length = 32)
    (hb : ∀ b ∈ salt, b < 256) : hintMaskOf salt < 65536 := by
  have h2 : ((salt.drop 16).take 2).length = 2 := by
    simp [List.length_take, List.length_drop, hl]
  have hmem : ∀ b ∈ (salt.drop 16).take 2, b < 256 := by
    intro b hbmem
    exact hb b (List.mem_of_mem_drop (List.mem_of_mem_take hbmem))
  match he : (salt.drop 16).take 2 with
  | [a, b] =>
    rw [hintMaskOf, he]
    exact fromBe2_lt a b (hmem a (he ▸ by simp)) (hmem b (he ▸ by simp))
  | [] => rw [he] at h2; simp at h2
  | [a] => rw [he] at h2; simp at h2
  | a :: b :: c :: rest => rw [he] at h2; simp at h2

/-! ## Framing lemmas -/

/-- The obfuscated sequence hint a frame built at sequence `s` carries:
`(s AND 0xFFFF) XOR hint_mask(salt(s))`. -/
def hintAt (seed : List Nat) (s : Nat) : Nat :=
  (s % 65536) ^^^ hintMaskOf (saltFor seed s)

/-- The byte string `build_dynamic_frame` produces at sequence `s` (the
`Ok` payload of `buildDynamicFrame`). -/
def builtFrame (seed : List Nat) (s : Nat) (payload : List Nat)
    (cfg : SilentConfig) (entropy : List Nat) : List Nat :=
  let salt := saltFor seed s
  let buffer := chacha20Poly1305Seal salt (salt.take 12) payload
  toBe4 (buffer.length ^^^ maskOf salt) ++
    (if cfg.enableSequenceHint then toBe2 (hintAt seed s) else []) ++
    (if isRatchetFrame cfg s then entropy else []) ++ buffer

theorem hintAt_lt (seed : List Nat) (s : Nat) : hintAt seed s < 65536 := by
  have h1 : s % 65536 < 65536 := Nat.mod_lt _ (by omega)
  have h2 := hintMaskOf_lt (saltFor seed s) (saltFor_length seed s)
    (fun b hb => saltFor_mem_lt seed s b hb)
  exact Nat.xor_lt_two_pow (n := 16) h1 h2

theorem builtFrame_buffer_length (seed : List Nat) (s : Nat) (payload : List Nat) :
    (chacha20Poly1305Seal (saltFor seed s) ((saltFor seed s).take 12) payload).length
      = payload.length + 16 := by
  apply seal_length
  · rw [saltFor_length]
  · simp [List.length_take, saltFor_length]

theorem builtFrame_length (seed : List Nat) (s : Nat) (payload : List Nat)
    (cfg : SilentConfig) (entropy : List Nat) :
    (builtFrame seed s payload cfg entropy).length =
      4 + (if cfg.enableSequenceHint then 2 else 0) +
        (if isRatchetFrame cfg s then entropy.length else 0) +
        (payload.length + 16) := by
  simp only [builtFrame, List.length_append, toBe4_length,
    builtFrame_buffer_length, apply_ite List.length, toBe2_length,
    List.length_nil]

theorem build_eq (seed : List Nat) (s : Nat) (payload : List Nat)
    (cfg : SilentConfig) (entropy : List Nat)
    (hlen : payload.length + 16 ≤ 4294967295)
    (hpanic : ratchetPanics cfg s = false) :
    buildDynamicFrame ⟨seed, s⟩ payload cfg entropy =
      (.ok (builtFrame seed s payload cfg entropy),
       if isRatchetFrame cfg s then
         (⟨sha256 (seed ++ entropy), s + 1⟩ : SaltGenerator)
       else ⟨seed, s + 1⟩) := by
  have hbuf := builtFrame_buffer_length seed s payload
  simp only [buildDynamicFrame, hbuf, builtFrame]
  rw [if_neg (by omega), hpanic]
  simp only [Bool.false_eq_true, if_false, SaltGenerator.mixEntropy]
  by_cases hr : isRatchetFrame cfg s
  · simp [hr, hintAt]
  · simp [hr, hintAt]

theorem elen_roundtrip (seed : List Nat) (s : Nat) (elen : Nat)
    (he : elen < 4294967296) :
    fromBeBytes (toBe4 (elen ^^^ maskOf (saltFor seed s))) ^^^ maskOf (saltFor seed s)
      = elen := by
  have hm := maskOf_lt (saltFor seed s) (saltFor_length seed s)
    (fun b hb => saltFor_mem_lt seed s b hb)
  rw [fromBe_toBe4 _ (Nat.xor_lt_two_pow (n := 32) he hm)]
  exact Nat.xor_cancel_right _ _

theorem parseAfterHint_built (seed : List Nat) (s : Nat) (payload : List Nat)
    (cfg : SilentConfig) (entropy : List Nat) (gen : SaltGenerator) (hs : Nat)
    (hnr : isRatchetFrame cfg s = false)
    (hu32 : payload.length + 16 ≤ 4294967295)
    (hhs : hs = 4 + (if cfg.enableSequenceHint then 2 else 0)) :
    parseAfterHint gen (builtFrame seed s payload cfg entropy) cfg
      hs false (saltFor seed s) =
    (if 10485760 < payload.length + 16 then
       (.error (.InvalidLength (payload.length + 16)) :
         Except DynamicFramingError (List Nat × Nat))
     else .ok (payload, (builtFrame seed s payload cfg entropy).length), gen) := by
  subst hhs
  have hbuf := builtFrame_buffer_length seed s payload
  have hflen := builtFrame_length seed s payload cfg entropy
  rw [hnr] at hflen
  simp only [Bool.false_eq_true, if_false] at hflen
  have hsalt := saltFor_length seed s
  set A := toBe4 ((chacha20Poly1305Seal (saltFor seed s) ((saltFor seed s).take 12)
    payload).length ^^^ maskOf (saltFor seed s)) with hA
  set B := chacha20Poly1305Seal (saltFor seed s) ((saltFor seed s).take 12) payload
    with hB
  have hshape : builtFrame seed s payload cfg entropy =
      A ++ ((if cfg.enableSequenceHint then toBe2 (hintAt seed s) else []) ++ B) := by
    rw [builtFrame, hnr]
    simp [List.append_assoc]
  have hdata4 : (builtFrame seed s payload cfg entropy).take 4 = A := by
    rw [hshape, show (4 : Nat) = A.length from (toBe4_length _).symm, List.take_left]
  have hdrop : (builtFrame seed s payload cfg entropy).drop
      (4 + (if cfg.enableSequenceHint then 2 else 0)) = B := by
    rw [hshape]
    by_cases hsh : cfg.enableSequenceHint
    · simp only [hsh, if_true]
      rw [← List.append_assoc]
      rw [show 4 + 2 = (A ++ toBe2 (hintAt seed s)).length by
        simp [hA, toBe4, toBe2]]
      exact List.drop_left _ _
    · simp only [hsh, Bool.false_eq_true, if_false, List.nil_append]
      rw [show 4 + 0 = A.length by simp [hA, toBe4]]
      exact List.drop_left _ _
  have helen : fromBeBytes ((builtFrame seed s payload cfg entropy).take 4) ^^^
      maskOf (saltFor seed s) = payload.length + 16 := by
    rw [hdata4, hA, hbuf]
    exact elen_roundtrip seed s (payload.length + 16) (by omega)
  simp only [parseAfterHint, Bool.false_eq_true, if_false, helen]
  by_cases hbig : 10485760 < payload.length + 16
  · simp only [if_pos hbig]
  · rw [if_neg hbig, if_neg hbig]
    rw [if_neg (show ¬ ((builtFrame seed s payload cfg entropy).length <
      4 + (if cfg.enableSequenceHint then 2 else 0) + (payload.length + 16)) by
        rw [hflen]; omega)]
    rw [hdrop]
    rw [show payload.length + 16 = B.length from hbuf.symm, List.take_length]
    rw [hB, open_seal _ _ _ (le_of_eq hsalt.symm) (by simp [List.length_take, hsalt])]
    rw [hflen]
    have harith : 4 + (if cfg.enableSequenceHint then 2 else 0) + (payload.length + 16)
        = 4 + (if cfg.enableSequenceHint then 2 else 0) + 0 + (payload.length + 16) := by
      omega
    rw [← hB, hbuf, harith]

theorem received_hint_built (seed : List Nat) (s : Nat) (payload : List Nat)
    (cfg : SilentConfig) (entropy : List Nat)
    (hsh : cfg.enableSequenceHint = true) (hnr : isRatchetFrame cfg s = false) :
    fromBeBytes (((builtFrame seed s payload cfg entropy).drop 4).take 2) =
      hintAt seed s := by
  have hshape : builtFrame seed s payload cfg entropy =
      toBe4 ((chacha20Poly1305Seal (saltFor seed s) ((saltFor seed s).take 12)
          payload).length ^^^ maskOf (saltFor seed s)) ++
        (toBe2 (hintAt seed s) ++
          chacha20Poly1305Seal (saltFor seed s) ((saltFor seed s).take 12) payload) := by
    rw [builtFrame, hnr, hsh]
    simp [List.append_assoc]
  rw [hshape, show (4 : Nat) = (toBe4 ((chacha20Poly1305Seal (saltFor seed s)
    ((saltFor seed s).take 12) payload).length ^^^ maskOf (saltFor seed s))).length
    from (toBe4_length _).symm, List.drop_left]
  rw [show (2 : Nat) = (toBe2 (hintAt seed s)).length from (toBe2_length _).symm,
    List.take_left]
  exact fromBe_toBe2 _ (hintAt_lt seed s)

theorem parse_built_sync (seed : List Nat) (s : Nat) (payload : List Nat)
    (cfg : SilentConfig) (entropy : List Nat)
    (hnr : isRatchetFrame cfg s = false) (hnp : ratchetPanics cfg s = false)
    (hu32 : payload.length + 16 ≤ 4294967295) :
    parseDynamicFrame ⟨seed, s⟩ (builtFrame seed s payload cfg entropy) cfg =
      (if 10485760 < payload.length + 16 then
         (.error (.InvalidLength (payload.length + 16)) :
           Except DynamicFramingError (List Nat × Nat))
       else .ok (payload, (builtFrame seed s payload cfg entropy).length),
       ⟨seed, s + 1⟩) := by
  have hflen := builtFrame_length seed s payload cfg entropy
  rw [hnr] at hflen
  simp only [Bool.false_eq_true, if_false] at hflen
  simp only [parseDynamicFrame, hnp, Bool.false_eq_true, if_false, hnr]
  rw [if_neg (show ¬ ((builtFrame seed s payload cfg entropy).length <
    4 + (if cfg.enableSequenceHint then 2 else 0) + 0) by rw [hflen]; omega)]
  by_cases hsh : cfg.enableSequenceHint
  · simp only [hsh, if_true]
    rw [received_hint_built seed s payload cfg entropy hsh hnr]
    rw [if_pos (show hintAt seed s = s % 65536 ^^^ hintMaskOf (saltFor seed s) from rfl)]
    exact parseAfterHint_built seed s payload cfg entropy
      (⟨seed, s + 1⟩ : SaltGenerator) _ hnr hu32 (by rw [hsh]; simp)
  · simp only [hsh, Bool.false_eq_true, if_false]
    exact parseAfterHint_built seed s payload cfg entropy
      (⟨seed, s + 1⟩ : SaltGenerator) _ hnr hu32 (by simp [hsh])

/-! ## Claim C1 -/

theorem isRatchetFrame_zero (cfg : SilentConfig) : isRatchetFrame cfg 0 = false := by
  simp [isRatchetFrame]

theorem ratchetPanics_zero (cfg : SilentConfig) : ratchetPanics cfg 0 = false := by
  simp [ratchetPanics]

/-- C1 (amended: the payload must keep the sealed body within the parser's
10 MiB frame ceiling). For every payload with `|payload| + 16 ≤ 10 MiB`,
every configuration and every 32-byte seed, building one frame with a sender
`SaltGenerator` initialized from that seed and parsing the bytes with a
receiver `SaltGenerator` initialized from the same seed returns the original
payload and the whole frame length as bytes consumed, and both generators
end at sequence 1 (advanced by exactly 1 from 0). -/
theorem c1_framing_roundtrip (seed payload entropy : List Nat) (cfg : SilentConfig)
    (hseed : seed.length = 32) (hlen : payload.length + 16 ≤ 10485760) :
    buildDynamicFrame (SaltGenerator.new seed) payload cfg entropy =
      (.ok (builtFrame seed 0 payload cfg entropy), ⟨seed, 1⟩) ∧
    parseDynamicFrame (SaltGenerator.new seed)
        (builtFrame seed 0 payload cfg entropy) cfg =
      (.ok (payload, (builtFrame seed 0 payload cfg entropy).length), ⟨seed, 1⟩) := by
  constructor
  · have h := build_eq seed 0 payload cfg entropy (by omega) (ratchetPanics_zero cfg)
    rw [isRatchetFrame_zero] at h
    simpa [SaltGenerator.new] using h
  · have h := parse_built_sync seed 0 payload cfg entropy (isRatchetFrame_zero cfg)
      (ratchetPanics_zero cfg) (by omega)
    rw [if_neg (by omega)] at h
    simpa [SaltGenerator.new] using h

/-- C1 witness: the amended round-trip at seed `0x05 × 32`, payload
`[1, 2, 3]`, default configuration. -/
theorem c1_framing_roundtrip_witness :
    (List.replicate 32 5).length = 32 ∧ ([1, 2, 3] : List Nat).length + 16 ≤ 10485760 ∧
    parseDynamicFrame (SaltGenerator.new (List.replicate 32 5))
        (builtFrame (List.replicate 32 5) 0 [1, 2, 3] SilentConfig.default [])
        SilentConfig.default =
      (.ok ([1, 2, 3],
        (builtFrame (List.replicate 32 5) 0 [1, 2, 3] SilentConfig.default []).length),
       ⟨List.replicate 32 5, 1⟩) :=
  ⟨by decide, by decide,
   (c1_framing_roundtrip (List.replicate 32 5) [1, 2, 3] [] SilentConfig.default
     (by decide) (by decide)).2⟩

/-- The 10485745-byte payload whose sealed body (10485761 bytes) exceeds the
parser's 10 MiB ceiling. -/
def c1BigPayload : List Nat := List.replicate 10485745 0

/-- The all-zero 32-byte seed. -/
def c1Seed : List Nat := List.replicate 32 0

/-- C1 counterexample: for the 10485745-byte payload under the default
configuration, the build succeeds but parsing the built frame with the
identically-seeded receiver returns `InvalidLength`, not the payload — the
claim's unrestricted quantification over payloads fails. -/
theorem c1_counterexample :
    buildDynamicFrame (SaltGenerator.new c1Seed) c1BigPayload SilentConfig.default [] =
      (.ok (builtFrame c1Seed 0 c1BigPayload SilentConfig.default []), ⟨c1Seed, 1⟩) ∧
    parseDynamicFrame (SaltGenerator.new c1Seed)
        (builtFrame c1Seed 0 c1BigPayload SilentConfig.default []) SilentConfig.default =
      (.error (.InvalidLength 10485761), ⟨c1Seed, 1⟩) := by
  have hplen : c1BigPayload.length = 10485745 := by
    rw [c1BigPayload, List.length_replicate]
  constructor
  · have h := build_eq c1Seed 0 c1BigPayload SilentConfig.default []
      (by rw [hplen]; omega) (ratchetPanics_zero _)
    rw [isRatchetFrame_zero] at h
    simpa [SaltGenerator.new] using h
  · have h := parse_built_sync c1Seed 0 c1BigPayload SilentConfig.default []
      (isRatchetFrame_zero _) (ratchetPanics_zero _) (by rw [hplen]; omega)
    rw [hplen] at h
    rw [if_pos (by omega)] at h
    simpa [SaltGenerator.new] using h

theorem drop_take_exact (pre mid post : List Nat) (n m : Nat)
    (hn : n = pre.length) (hm : m = mid.length) :
    ((pre ++ (mid ++ post)).drop n).take m = mid := by
  subst hn hm
  rw [List.drop_left, List.take_left]

/-! ## Claim C5 -/

/-- C5. A frame built at sender sequence `s` carries the 32-byte
rekey-entropy field iff `enable_double_ratchet ∧ s > 0 ∧
s mod ratchet_interval = 0` (`isRatchetFrame`): the frame's length is
`4 + hint + (32 iff ratchet) + |payload| + 16`, on a ratchet frame the
entropy sits right after the hint, and for the same payload and
configuration a ratchet frame is exactly 32 bytes longer than a non-ratchet
frame. -/
theorem c5_ratchet_schedule (seed payload entropy : List Nat) (cfg : SilentConfig)
    (s : Nat) (hent : entropy.length = 32)
    (hu32 : payload.length + 16 ≤ 4294967295)
    (hnp : ratchetPanics cfg s = false) :
    ∀ frame gen2,
      buildDynamicFrame ⟨seed, s⟩ payload cfg entropy = (.ok frame, gen2) →
      (frame.length = 4 + (if cfg.enableSequenceHint then 2 else 0) +
        (if isRatchetFrame cfg s then 32 else 0) + (payload.length + 16)) ∧
      (isRatchetFrame cfg s = true →
        (frame.drop (4 + (if cfg.enableSequenceHint then 2 else 0))).take 32 =
          entropy) ∧
      (∀ s2 frame2 gen3, isRatchetFrame cfg s = true →
        isRatchetFrame cfg s2 = false → ratchetPanics cfg s2 = false →
        buildDynamicFrame ⟨seed, s2⟩ payload cfg entropy = (.ok frame2, gen3) →
        frame.length = frame2.length + 32) := by
  intro frame gen2 hbuild
  rw [build_eq seed s payload cfg entropy hu32 hnp] at hbuild
  have hframe : frame = builtFrame seed s payload cfg entropy := by
    by_cases hr : isRatchetFrame cfg s <;> simp [hr] at hbuild <;> exact hbuild.1.symm
  subst hframe
  refine ⟨?_, ?_, ?_⟩
  · rw [builtFrame_length]
    by_cases hr : isRatchetFrame cfg s <;> simp [hr, hent]
  · intro hr
    rw [builtFrame, hr]
    simp only [if_true]
    set A := toBe4 ((chacha20Poly1305Seal (saltFor seed s) ((saltFor seed s).take 12)
      payload).length ^^^ maskOf (saltFor seed s)) with hA
    by_cases hsh : cfg.enableSequenceHint
    · simp only [hsh, if_true]
      rw [List.append_assoc (A ++ toBe2 (hintAt seed s)) entropy]
      exact drop_take_exact (A ++ toBe2 (hintAt seed s)) entropy _ (4 + 2) 32
        (by simp [hA, toBe4, toBe2]) hent.symm
    · simp only [hsh, Bool.false_eq_true, if_false, List.append_nil]
      rw [List.append_assoc A entropy]
      exact drop_take_exact A entropy _ (4 + 0) 32 (by simp [hA, toBe4]) hent.symm
  · intro s2 frame2 gen3 hr1 hr2 hnp2 hbuild2
    rw [build_eq seed s2 payload cfg entropy hu32 hnp2] at hbuild2
    have hframe2 : frame2 = builtFrame seed s2 payload cfg entropy := by
      simp [hr2] at hbuild2
      exact hbuild2.1.symm
    subst hframe2
    rw [builtFrame_length, builtFrame_length, hr1, hr2]
    simp [hent]
    omega

/-- The C5 witness configuration: hint on, ratchet on, interval 2. -/
def c5Config : SilentConfig :=
  { enableSequenceHint := true, enableDoubleRatchet := true, ratchetInterval := 2 }

/-- C5 witness: at sequence 2 under interval 2 the frame is
`4 + 2 + 32 + 1 + 16 = 55` bytes and embeds the entropy at offset 6; at
sequence 1 it is 23 bytes — exactly 32 fewer. -/
theorem c5_ratchet_schedule_witness :
    (List.replicate 32 9 : List Nat).length = 32 ∧
    ([7] : List Nat).length + 16 ≤ 4294967295 ∧
    ratchetPanics c5Config 2 = false ∧
    isRatchetFrame c5Config 2 = true ∧
    isRatchetFrame c5Config 1 = false ∧
    (builtFrame (List.replicate 32 0) 2 [7] c5Config (List.replicate 32 9)).length =
      (builtFrame (List.replicate 32 0) 1 [7] c5Config (List.replicate 32 9)).length
        + 32 := by
  refine ⟨by decide, by decide, by decide, by decide, by decide, ?_⟩
  have h := c5_ratchet_schedule (List.replicate 32 0) [7] (List.replicate 32 9)
    c5Config 2 (by decide) (by decide) (by decide)
    (builtFrame (List.replicate 32 0) 2 [7] c5Config (List.replicate 32 9))
    (⟨sha256 (List.replicate 32 0 ++ List.replicate 32 9), 3⟩ : SaltGenerator)
    (by rw [build_eq _ _ _ _ _ (by decide) (by decide)]
        simp [show isRatchetFrame c5Config 2 = true from by decide])
  exact (h.2.2) 1
    (builtFrame (List.replicate 32 0) 1 [7] c5Config (List.replicate 32 9))
    (⟨List.replicate 32 0, 2⟩ : SaltGenerator)
    (by decide) (by decide) (by decide)
    (by rw [build_eq _ _ _ _ _ (by decide) (by decide)]
        simp [show isRatchetFrame c5Config 1 = false from by decide])

/-! ## Claim C6 -/

theorem findSome?_range'_first {α : Type} (f : Nat → Option α) (v : α)
    (s len d : Nat) (hsd : s ≤ d) (hlt : d < s + len)
    (hnone : ∀ δ, s ≤ δ → δ < d → f δ = none) (hh : f d = some v) :
    (List.range' s len).findSome? f = some v := by
  induction len generalizing s with
  | zero => omega
  | succ n ih =>
    rw [List.range'_succ, List.findSome?_cons]
    by_cases hsd2 : s = d
    · subst hsd2
      rw [hh]
    · rw [hnone s (le_refl s) (by omega)]
      exact ih (s + 1) (by omega) (by omega) (fun δ h1 h2 => hnone δ (by omega) h2)

theorem findSome?_range'_none {α : Type} (f : Nat → Option α) (s len : Nat)
    (hnone : ∀ δ, s ≤ δ → δ < s + len → f δ = none) :
    (List.range' s len).findSome? f = none := by
  apply List.findSome?_eq_none_iff.mpr
  intro x hx
  rw [List.mem_range'_1] at hx
  exact hnone x hx.1 hx.2

theorem searchSync_found (seed : List Nat) (d : Nat) (hd1 : 1 ≤ d)
    (hd2 : d ≤ 1000) (hno : ∀ δ, 1 ≤ δ → δ < d → hintAt seed δ ≠ hintAt seed d) :
    searchSync seed 0 (hintAt seed d) = some (d, saltFor seed d) := by
  apply findSome?_range'_first _ _ 1 1000 d hd1 (by omega)
  · intro δ h1 h2
    simp only [Nat.zero_add]
    rw [if_neg]
    intro hcontra
    exact hno δ h1 h2 (by rw [hintAt, hcontra])
  · simp only [Nat.zero_add]
    rw [if_pos (show hintAt seed d = d % 65536 ^^^ hintMaskOf (saltFor seed d)
      from rfl)]

theorem searchSync_none (seed : List Nat) (received : Nat)
    (hno : ∀ δ, 1 ≤ δ → δ ≤ 1000 → hintAt seed δ ≠ received) :
    searchSync seed 0 received = none := by
  apply findSome?_range'_none
  intro δ h1 h2
  simp only [Nat.zero_add]
  rw [if_neg]
  intro hcontra
  exact hno δ h1 (by omega) (by rw [hintAt, hcontra])

/-- The C6 configuration family: hint on, ratchet off. -/
def c6Config (interval : Nat) : SilentConfig :=
  { enableSequenceHint := true, enableDoubleRatchet := false,
    ratchetInterval := interval }

/-- C6 (amended: the resynchronization window `δ ∈ [1, 1000]` admits up to
1000 — not 999 — lost frames, success additionally requires that no earlier
window offset carries an accidentally colliding 16-bit hint, and the
≥-1001 failure requires no offset in the window to match). With
`enable_sequence_hint = true` and `enable_double_ratchet = false`, a
receiver at sequence 0 parsing the frame built at sequence `d`:
if `1 ≤ d ≤ 1000` and no offset `δ < d` has `hintAt δ = hintAt d`, parsing
succeeds and advances the receiver to sequence `d + 1`; if `1001 ≤ d` and no
window offset matches the received hint, parsing returns `DecryptionError`
and restores sequence 0. -/
theorem c6_bounded_resync (seed payload entropy : List Nat) (interval d : Nat)
    (hd1 : 1 ≤ d) (hu : payload.length + 16 ≤ 10485760) :
    (d ≤ 1000 → (∀ δ, δ < d → hintAt seed δ ≠ hintAt seed d) →
      parseDynamicFrame (SaltGenerator.new seed)
          (builtFrame seed d payload (c6Config interval) entropy)
          (c6Config interval) =
        (.ok (payload,
          (builtFrame seed d payload (c6Config interval) entropy).length),
         ⟨seed, d + 1⟩)) ∧
    (1001 ≤ d → (∀ δ, δ ≤ 1000 → hintAt seed δ ≠ hintAt seed d) →
      parseDynamicFrame (SaltGenerator.new seed)
          (builtFrame seed d payload (c6Config interval) entropy)
          (c6Config interval) =
        (.error .DecryptionError, ⟨seed, 0⟩)) := by
  have hnr : ∀ s : Nat, isRatchetFrame (c6Config interval) s = false := by
    intro s
    simp [isRatchetFrame, c6Config]
  have hnp : ∀ s : Nat, ratchetPanics (c6Config interval) s = false := by
    intro s
    simp [ratchetPanics, c6Config]
  have hflen := builtFrame_length seed d payload (c6Config interval) entropy
  rw [hnr d] at hflen
  simp only [Bool.false_eq_true, if_false] at hflen
  have hrecv := received_hint_built seed d payload (c6Config interval) entropy
    (by simp [c6Config]) (hnr d)
  constructor
  · intro hd2 hno
    simp only [parseDynamicFrame, SaltGenerator.new, hnp 0, Bool.false_eq_true,
      if_false, hnr 0]
    rw [if_neg (show ¬ ((builtFrame seed d payload (c6Config interval) entropy).length
      < 4 + (if (c6Config interval).enableSequenceHint then 2 else 0) + 0) by
        rw [hflen]; omega)]
    simp only [show (c6Config interval).enableSequenceHint = true from rfl, if_true]
    rw [hrecv]
    rw [if_neg (show ¬ (hintAt seed d = 0 % 65536 ^^^ hintMaskOf (saltFor seed 0)) by
      intro hcontra
      exact hno 0 (by omega) (by rw [hintAt]; rw [← hcontra]))]
    rw [searchSync_found seed d hd1 hd2 (fun δ h1 h2 => hno δ h2)]
    simp only [hnp d, Bool.false_eq_true, if_false, hnr d, ne_eq,
      not_false_eq_true, not_true_eq_false]
    have h := parseAfterHint_built seed d payload (c6Config interval) entropy
      (⟨seed, d + 1⟩ : SaltGenerator) (4 + 2 + 0) (hnr d) (by omega)
      (by simp [c6Config])
    rw [if_neg (show ¬ (10485760 < payload.length + 16) by omega)] at h
    simpa using h
  · intro hd2 hno
    simp only [parseDynamicFrame, SaltGenerator.new, hnp 0, Bool.false_eq_true,
      if_false, hnr 0]
    rw [if_neg (show ¬ ((builtFrame seed d payload (c6Config interval) entropy).length
      < 4 + (if (c6Config interval).enableSequenceHint then 2 else 0) + 0) by
        rw [hflen]; omega)]
    simp only [show (c6Config interval).enableSequenceHint = true from rfl, if_true]
    rw [hrecv]
    rw [if_neg (show ¬ (hintAt seed d = 0 % 65536 ^^^ hintMaskOf (saltFor seed 0)) by
      intro hcontra
      exact hno 0 (by omega) (by rw [hintAt]; rw [← hcontra]))]
    rw [searchSync_none seed (hintAt seed d) (fun δ h1 h2 => hno δ h2)]

/-- C6 witness: seed `0x00 × 32`, two lost frames (`d = 2`), no hint
collision among offsets 0 and 1, so the frame built at sequence 2 parses and
the receiver lands on sequence 3. -/
theorem c6_bounded_resync_witness :
    (1 ≤ 2 ∧ ([5] : List Nat).length + 16 ≤ 10485760 ∧ (2 : Nat) ≤ 1000) ∧
    hintAt (List.replicate 32 0) 0 ≠ hintAt (List.replicate 32 0) 2 ∧
    hintAt (List.replicate 32 0) 1 ≠ hintAt (List.replicate 32 0) 2 ∧
    parseDynamicFrame (SaltGenerator.new (List.replicate 32 0))
        (builtFrame (List.replicate 32 0) 2 [5] (c6Config 1000) [])
        (c6Config 1000) =
      (.ok ([5],
        (builtFrame (List.replicate 32 0) 2 [5] (c6Config 1000) []).length),
       ⟨List.replicate 32 0, 3⟩) :=
  ⟨⟨by omega, by decide, by omega⟩, by decide, by decide,
   (c6_bounded_resync (List.replicate 32 0) [5] [] 1000 2 (by omega) (by decide)).1
     (by omega) (by decide)⟩

/-- The C6 counterexample seed `0xD3 × 32`: the hint built at sequence 285
collides with the hint at offset 1. -/
def c6Seed : List Nat := List.replicate 32 211

/-- C6 counterexample: behind by `d = 285 ≤ 999` lost frames with hint
resynchronization on, the receiver does not recover: the window search hits
the colliding offset 1 first, resynchronizes to the wrong sequence 2, and
the wrongly-derived mask explodes the length field into an `InvalidLength`
error — parsing does not succeed, falsifying the claim's unconditional
success for all `d ≤ 999`. -/
theorem c6_counterexample :
    hintAt c6Seed 1 = hintAt c6Seed 285 ∧
    (285 : Nat) ≤ 999 ∧
    parseDynamicFrame (SaltGenerator.new c6Seed)
        (builtFrame c6Seed 285 [42] SilentConfig.default [])
        SilentConfig.default =
      (.error (.InvalidLength 2718066607), ⟨c6Seed, 2⟩) := by
  refine ⟨by decide, by omega, ?_⟩
  rfl

/-! ## Claim C4 -/

theorem isRatchetFrame_no_panic (cfg : SilentConfig) (s : Nat)
    (hr : isRatchetFrame cfg s = true) : ratchetPanics cfg s = false := by
  simp only [isRatchetFrame, Bool.and_eq_true, decide_eq_true_eq] at hr
  obtain ⟨⟨hedr, hpos⟩, hmod⟩ := hr
  have hint0 : cfg.ratchetInterval ≠ 0 := by
    intro h0
    rw [h0, Nat.mod_zero] at hmod
    omega
  simp [ratchetPanics, hedr, hint0]

theorem parseAfterHint_rekey_seed (gen : SaltGenerator) (data : List Nat)
    (cfg : SilentConfig) (hs : Nat) (salt : List Nat) :
    (parseAfterHint gen data cfg hs true salt).2.seed =
      sha256 (gen.seed ++
        (data.drop (if cfg.enableSequenceHint then 6 else 4)).take 32) := by
  simp only [parseAfterHint, if_true, SaltGenerator.mixEntropy]
  split
  · rfl
  · split
    · rfl
    · split <;> rfl

/-- C4 (amended: the code applies the ratchet seed update as soon as the
entropy field is extracted, before AEAD decryption, not after it). When the
configuration predicts a ratchet frame for the receiver's current sequence
and the hint check passes (hints disabled, or the received hint matches the
expected one) and the data covers the header, the generator's seed after the
call is `SHA256(seed ‖ E)` with `E` the 32 entropy bytes of the header —
regardless of whether decryption succeeds, fails, or the body is incomplete;
in particular a `DecryptionError` return leaves the seed already mixed. -/
theorem c4_seed_mix_before_decrypt (gen : SaltGenerator) (data : List Nat)
    (cfg : SilentConfig)
    (hr : isRatchetFrame cfg gen.sequence = true)
    (hhint : cfg.enableSequenceHint = false ∨
      fromBeBytes ((data.drop 4).take 2) =
        (gen.sequence % 65536) ^^^ hintMaskOf (saltFor gen.seed gen.sequence))
    (hlen : 4 + (if cfg.enableSequenceHint then 2 else 0) + 32 ≤ data.length) :
    (parseDynamicFrame gen data cfg).2.seed =
      sha256 (gen.seed ++
        (data.drop (if cfg.enableSequenceHint then 6 else 4)).take 32) := by
  have hnp := isRatchetFrame_no_panic cfg gen.sequence hr
  simp only [parseDynamicFrame, hnp, Bool.false_eq_true, if_false, hr, if_true]
  rw [if_neg (by omega)]
  rcases hhint with hsh | hmatch
  · simp only [hsh, Bool.false_eq_true, if_false]
    have h := parseAfterHint_rekey_seed
      ({ gen with sequence := gen.sequence + 1 }) data cfg
      (4 + (if cfg.enableSequenceHint then 2 else 0) + 32)
      (saltFor gen.seed gen.sequence)
    rw [hsh] at h
    simpa using h
  · by_cases hsh : cfg.enableSequenceHint
    · simp only [hsh, if_true]
      rw [if_pos hmatch]
      have h := parseAfterHint_rekey_seed
        ({ gen with sequence := gen.sequence + 1 }) data cfg
        (4 + (if cfg.enableSequenceHint then 2 else 0) + 32)
        (saltFor gen.seed gen.sequence)
      rw [hsh] at h
      simpa using h
    · simp only [hsh, Bool.false_eq_true, if_false]
      have h := parseAfterHint_rekey_seed
        ({ gen with sequence := gen.sequence + 1 }) data cfg
        (4 + (if cfg.enableSequenceHint then 2 else 0) + 32)
        (saltFor gen.seed gen.sequence)
      simpa [hsh] using h

/-- The C4 configuration: hints off, ratcheting on with interval 1. -/
def c4Config : SilentConfig :=
  { enableSequenceHint := false, enableDoubleRatchet := true, ratchetInterval := 1 }

/-- The C4 input: a well-formed ratchet header (obfuscated length 16, 32
zero entropy bytes) followed by a 16-zero-byte garbage AEAD body. -/
def c4Data : List Nat :=
  toBe4 (16 ^^^ maskOf (saltFor (List.replicate 32 0) 1)) ++
    (List.replicate 32 0 ++ List.replicate 16 0)

/-- C4 witness (for the amended theorem): on the concrete ratchet-frame
input, the receiver's seed after the call is `SHA256(seed ‖ 0x00 × 32)`. -/
theorem c4_seed_mix_before_decrypt_witness :
    isRatchetFrame c4Config 1 = true ∧
    4 + (if c4Config.enableSequenceHint then 2 else 0) + 32 ≤ c4Data.length ∧
    (parseDynamicFrame (⟨List.replicate 32 0, 1⟩ : SaltGenerator) c4Data
        c4Config).2.seed =
      sha256 (List.replicate 32 0 ++
        (c4Data.drop (if c4Config.enableSequenceHint then 6 else 4)).take 32) :=
  ⟨by decide, by decide,
   c4_seed_mix_before_decrypt ⟨List.replicate 32 0, 1⟩ c4Data c4Config
     (by decide) (Or.inl rfl) (by decide)⟩

/-- C4 counterexample: on the concrete ratchet-frame input `c4Data` the AEAD
tag is garbage, so parse returns `DecryptionError` — yet the generator's
seed has changed (it was mixed before decryption), falsifying the claim that
a `DecryptionError` return leaves the seed untouched. -/
theorem c4_counterexample :
    (parseDynamicFrame (⟨List.replicate 32 0, 1⟩ : SaltGenerator) c4Data
      c4Config).1 = .error .DecryptionError ∧
    (parseDynamicFrame (⟨List.replicate 32 0, 1⟩ : SaltGenerator) c4Data
      c4Config).2.seed ≠ List.replicate 32 0 := by
  constructor
  · rfl
  · decide

/-! ## Claim C7 -/

/-- The header size `parse_dynamic_frame` computes from the configuration
and the receiver's current sequence. -/
def parseHeaderSize (cfg : SilentConfig) (s : Nat) : Nat :=
  4 + (if cfg.enableSequenceHint then 2 else 0) +
    (if isRatchetFrame cfg s then 32 else 0)

/-- The de-obfuscated body length the receiver reads from the first four
bytes under the mask of its expected salt. -/
def deobfLen (gen : SaltGenerator) (data : List Nat) : Nat :=
  fromBeBytes (data.take 4) ^^^ maskOf (saltFor gen.seed gen.sequence)

theorem parseAfterHint_incomplete (gen : SaltGenerator) (data : List Nat)
    (cfg : SilentConfig) (hs : Nat) (dr : Bool) (salt : List Nat)
    (hL : fromBeBytes (data.take 4) ^^^ maskOf salt ≤ 10485760)
    (hshort : data.length < hs + (fromBeBytes (data.take 4) ^^^ maskOf salt)) :
    (parseAfterHint gen data cfg hs dr salt).1 = .error .IncompleteData ∧
    (parseAfterHint gen data cfg hs dr salt).2.sequence = gen.sequence - 1 := by
  simp only [parseAfterHint]
  rw [if_neg (by omega), if_pos hshort]
  cases dr
  · exact ⟨rfl, rfl⟩
  · simp [SaltGenerator.mixEntropy]

/-- C7 (amended: the Incomplete-with-rollback outcome additionally requires
the sequence-hint check to accept the frame — hints disabled or the received
hint matching the expected one — and the de-obfuscated length to be within
the 10 MiB ceiling; a failed hint or an oversized length produce
`DecryptionError` / `InvalidLength` instead). If the input is shorter than
the computed header size, parse returns `Incomplete` with the generator
untouched; if the hint check passes, the input is at least the header but
shorter than header plus the de-obfuscated body length `L ≤ 10 MiB`, parse
returns `Incomplete` and the sequence ends where it started (the optimistic
advance rolled back by 1). -/
theorem c7_incomplete_handling (gen : SaltGenerator) (data : List Nat)
    (cfg : SilentConfig) (hnp : ratchetPanics cfg gen.sequence = false) :
    (data.length < parseHeaderSize cfg gen.sequence →
      parseDynamicFrame gen data cfg = (.error .IncompleteData, gen)) ∧
    ((cfg.enableSequenceHint = false ∨
        fromBeBytes ((data.drop 4).take 2) =
          (gen.sequence % 65536) ^^^ hintMaskOf (saltFor gen.seed gen.sequence)) →
      parseHeaderSize cfg gen.sequence ≤ data.length →
      deobfLen gen data ≤ 10485760 →
      data.length < parseHeaderSize cfg gen.sequence + deobfLen gen data →
      (parseDynamicFrame gen data cfg).1 = .error .IncompleteData ∧
      (parseDynamicFrame gen data cfg).2.sequence = gen.sequence) := by
  constructor
  · intro hshort
    rw [parseHeaderSize] at hshort
    simp only [parseDynamicFrame, hnp, Bool.false_eq_true, if_false]
    rw [if_pos hshort]
  · intro hhint hge hL hshort
    rw [parseHeaderSize] at hge hshort
    rw [deobfLen] at hL hshort
    simp only [parseDynamicFrame, hnp, Bool.false_eq_true, if_false]
    rw [if_neg (by omega)]
    have hfin := parseAfterHint_incomplete
      ({ gen with sequence := gen.sequence + 1 }) data cfg
      (4 + (if cfg.enableSequenceHint then 2 else 0) +
        (if isRatchetFrame cfg gen.sequence then 32 else 0))
      (isRatchetFrame cfg gen.sequence) (saltFor gen.seed gen.sequence)
      hL (by omega)
    rcases hhint with hsh | hmatch
    · simp only [hsh, Bool.false_eq_true, if_false]
      simpa [hsh] using hfin
    · by_cases hsh : cfg.enableSequenceHint
      · simp only [hsh, if_true]
        rw [if_pos hmatch]
        simpa [hsh] using hfin
      · simp only [hsh, Bool.false_eq_true, if_false]
        simpa [hsh] using hfin

/-- The C7 witness data: a valid 6-byte header announcing a 20-byte body
that never arrives. -/
def c7bData : List Nat :=
  toBe4 (20 ^^^ maskOf (saltFor (List.replicate 32 0) 0)) ++
    toBe2 (hintAt (List.replicate 32 0) 0)

/-- C7 witness: a truncated buffer below the header returns `Incomplete`
untouched, and the concrete 6-byte header announcing 20 further bytes
returns `Incomplete` with the sequence back at 0. -/
theorem c7_incomplete_handling_witness :
    (([0, 0] : List Nat).length <
      parseHeaderSize SilentConfig.default 0 ∧
     parseDynamicFrame (SaltGenerator.new (List.replicate 32 0)) [0, 0]
        SilentConfig.default =
      (.error .IncompleteData, SaltGenerator.new (List.replicate 32 0))) ∧
    (parseHeaderSize SilentConfig.default 0 ≤ c7bData.length ∧
     deobfLen (SaltGenerator.new (List.replicate 32 0)) c7bData ≤ 10485760 ∧
     c7bData.length < parseHeaderSize SilentConfig.default 0 +
       deobfLen (SaltGenerator.new (List.replicate 32 0)) c7bData ∧
     (parseDynamicFrame (SaltGenerator.new (List.replicate 32 0)) c7bData
        SilentConfig.default).1 = .error .IncompleteData ∧
     (parseDynamicFrame (SaltGenerator.new (List.replicate 32 0)) c7bData
        SilentConfig.default).2.sequence = 0) := by
  constructor
  · exact ⟨by decide,
      (c7_incomplete_handling (SaltGenerator.new (List.replicate 32 0)) [0, 0]
        SilentConfig.default (by decide)).1 (by decide)⟩
  · refine ⟨by decide, by decide, by decide, ?_⟩
    exact (c7_incomplete_handling (SaltGenerator.new (List.replicate 32 0)) c7bData
      SilentConfig.default (by decide)).2
      (Or.inr (by decide)) (by decide) (by decide) (by decide)

/-- The C7 counterexample configuration: hints and ratcheting on,
interval 1. -/
def c7Config : SilentConfig :=
  { enableSequenceHint := true, enableDoubleRatchet := true, ratchetInterval := 1 }

/-- The C7 counterexample input: a 6-byte buffer whose hint is the one for
sequence 1 and whose obfuscated length decodes to 100 under the salt of
sequence 1. -/
def c7Data : List Nat :=
  toBe4 (100 ^^^ maskOf (saltFor (List.replicate 32 0) 1)) ++
    toBe2 (hintAt (List.replicate 32 0) 1)

/-- C7 counterexample: the input is exactly the header size (6 bytes) and
shorter than header + L under either salt's mask, yet parse returns
`DecryptionError` — not `Incomplete` — because the hint resynchronizes onto
sequence 1, whose ratchet prediction differs; the claim's premise holds and
its conclusion fails. -/
theorem c7_counterexample :
    c7Data.length = parseHeaderSize c7Config 0 ∧
    0 < deobfLen (SaltGenerator.new (List.replicate 32 0)) c7Data ∧
    c7Data.length < parseHeaderSize c7Config 0 +
      deobfLen (SaltGenerator.new (List.replicate 32 0)) c7Data ∧
    c7Data.length < parseHeaderSize c7Config 0 +
      (fromBeBytes (c7Data.take 4) ^^^ maskOf (saltFor (List.replicate 32 0) 1)) ∧
    parseDynamicFrame (SaltGenerator.new (List.replicate 32 0)) c7Data c7Config =
      (.error .DecryptionError, ⟨List.replicate 32 0, 2⟩) := by
  refine ⟨by decide, by decide, by decide, by decide, ?_⟩
  rfl

/-! ## Association-list lemmas -/

theorem lookupA_updateA_self {α : Type} (l : List (Nat × α)) (k : Nat) (v : α) :
    lookupA (updateA l k v) k = some v := by
  induction l with
  | nil => simp [updateA, lookupA]
  | cons p rest ih =>
    by_cases hk : p.1 = k
    · simp [updateA, hk, lookupA]
    · simp only [updateA]
      rw [if_neg (by exact hk)]
      simp only [lookupA]
      rw [if_neg (by exact hk)]
      exact ih

theorem lookupA_updateA_ne {α : Type} (l : List (Nat × α)) (k j : Nat) (v : α)
    (hne : k ≠ j) : lookupA (updateA l k v) j = lookupA l j := by
  induction l with
  | nil => simp [updateA, lookupA, hne]
  | cons p rest ih =>
    by_cases hk : p.1 = k
    · subst hk
      simp [updateA, lookupA, hne]
    · by_cases hj : p.1 = j
      · simp only [updateA]
        rw [if_neg hk]
        simp [lookupA, hj]
      · simp only [updateA]
        rw [if_neg hk]
        simp [lookupA, hj, ih]

theorem updateA_self {α : Type} (l : List (Nat × α)) (k : Nat) (v : α)
    (h : lookupA l k = some v) : updateA l k v = l := by
  induction l with
  | nil => simp [lookupA] at h
  | cons p rest ih =>
    by_cases hk : p.1 = k
    · simp only [lookupA] at h
      rw [if_pos hk] at h
      simp only [updateA]
      rw [if_pos hk]
      cases h
      rw [← hk]
    · simp only [lookupA] at h
      rw [if_neg hk] at h
      simp only [updateA]
      rw [if_neg hk, ih h]

theorem lookupA_eraseA_self {α : Type} (l : List (Nat × α)) (k : Nat)
    (hkeys : (l.map Prod.fst).Nodup) : lookupA (eraseA l k) k = none := by
  induction l with
  | nil => simp [eraseA, lookupA]
  | cons p rest ih =>
    simp only [List.map_cons, List.nodup_cons] at hkeys
    by_cases hk : p.1 = k
    · simp only [eraseA]
      rw [if_pos hk]
      subst hk
      cases h2 : lookupA rest p.1 with
      | none => rfl
      | some v =>
        exfalso
        apply hkeys.1
        clear ih hkeys
        induction rest with
        | nil => simp [lookupA] at h2
        | cons q qrest ih2 =>
          simp only [lookupA] at h2
          by_cases hq : q.1 = p.1
          · simp [← hq]
          · rw [if_neg hq] at h2
            simp only [List.map_cons, List.mem_cons]
            exact Or.inr (ih2 h2)
    · simp only [eraseA]
      rw [if_neg hk]
      simp only [lookupA]
      rw [if_neg hk]
      exact ih hkeys.2

theorem lookupA_eraseA_ne {α : Type} (l : List (Nat × α)) (k j : Nat) (hne : k ≠ j) :
    lookupA (eraseA l k) j = lookupA l j := by
  induction l with
  | nil => simp [eraseA]
  | cons p rest ih =>
    by_cases hk : p.1 = k
    · simp only [eraseA]
      rw [if_pos hk]
      simp only [lookupA]
      rw [if_neg (by omega)]
    · simp only [eraseA]
      rw [if_neg hk]
      simp only [lookupA]
      by_cases hj : p.1 = j
      · rw [if_pos hj, if_pos hj]
      · rw [if_neg hj, if_neg hj]
        exact ih

theorem lookupS_updateS_self {α : Type} (l : List (List Nat × α)) (k : List Nat)
    (v : α) : lookupS (updateS l k v) k = some v := by
  induction l with
  | nil => simp [updateS, lookupS]
  | cons p rest ih =>
    by_cases hk : p.1 = k
    · simp [updateS, hk, lookupS]
    · simp only [updateS]
      rw [if_neg (by exact hk)]
      simp only [lookupS]
      rw [if_neg (by exact hk)]
      exact ih

theorem updateS_self {α : Type} (l : List (List Nat × α)) (k : List Nat) (v : α)
    (h : lookupS l k = some v) : updateS l k v = l := by
  induction l with
  | nil => simp [lookupS] at h
  | cons p rest ih =>
    by_cases hk : p.1 = k
    · simp only [lookupS] at h
      rw [if_pos hk] at h
      simp only [updateS]
      rw [if_pos hk]
      cases h
      rw [← hk]
    · simp only [lookupS] at h
      rw [if_neg hk] at h
      simp only [updateS]
      rw [if_neg hk, ih h]

/-! ## Claim C2 -/

theorem xor_shift32_lt (x : Nat) (hx : x < 18446744073709551616) :
    x ^^^ (x >>> 32) < 18446744073709551616 := by
  apply Nat.xor_lt_two_pow (n := 64) hx
  have h1 : x >>> 32 = x / 2 ^ 32 := Nat.shiftRight_eq_div_pow x 32
  have h2 : x / 2 ^ 32 ≤ x := Nat.div_le_self _ _
  omega

theorem xxhAvalanche_lt (h0 : Nat) : xxhAvalanche h0 < 18446744073709551616 := by
  simp only [xxhAvalanche, w64]
  exact xor_shift32_lt _ (Nat.mod_lt _ (by omega))

theorem xxh64_lt (seed : Nat) (msg : List Nat) :
    xxh64 seed msg < 18446744073709551616 := by
  simp only [xxh64]
  exact xxhAvalanche_lt _

/-- The critical text of the repository's own FEC integration test. -/
def c2Input : List Nat := "Critical Alert: System Failure!".toList.map Char.toNat

/-- A concrete 16-byte session id (the encoder's fresh UUID argument). -/
def c2SessionId : List Nat := List.range 16

/-- The six frames the encoder emits for the test text at `k = 4, m = 2`. -/
def c2Frames : List FecFrame := fecEncode 4 2 c2SessionId c2Input

/-- The result of feeding the four data shards to a fresh reassembler. -/
def c2Recovered : Except String (Option RecoveredMessage) :=
  (processFecFrame
    ((c2Frames.take 3).foldl (fun r f => (processFecFrame r f 0).2)
      (ReassemblerState.new 4 2))
    (c2Frames.getD 3 (createFecFrame c2SessionId 0 4 2 [] 0)) 0).1

/-- C2 (code bug). The encoder emits k+m frames, but the reassembler never
reads the 4-byte little-endian length header nor truncates: feeding the k
data shards of the integration test's own input recovers
`LE32(31) ‖ input ‖ 0×221` — 256 bytes of framed, padded data — instead of
the 31-byte original input that `tests/integration_test.rs` asserts. -/
theorem c2_fec_no_truncation :
    c2Frames.length = 4 + 2 ∧
    c2Recovered = .ok (some
      { sessionId := c2SessionId,
        originalData := toLe4 31 ++ c2Input ++ List.replicate 221 0,
        recoveryTime := 0, blocksUsed := 4, blocksTotal := 6 }) ∧
    toLe4 31 ++ c2Input ++ List.replicate 221 0 ≠ c2Input := by
  refine ⟨by decide, ?_, by decide⟩
  rfl

/-! ## Claim C3 -/

/-- A frame with a deliberately wrong stored hash: the true hash plus one. -/
def c3Base : FecFrame :=
  { sessionId := List.range 16, blockIndex := 0, k := 4, m := 2, payload := [1],
    xxhash64 := 0, blockType := 0, version := 1 }

/-- The C3 corrupted frame. -/
def c3Bad : FecFrame :=
  { c3Base with xxhash64 := (calculateFrameHash c3Base + 1) % 18446744073709551616 }

/-- C3 counterexample: a frame whose stored xxhash64 mismatches the
recomputed hash is not dropped — `process_fec_frame` opens a session and
collects its block, changing the collected-block state. -/
theorem c3_counterexample :
    validateFrame c3Bad = false ∧
    (processFecFrame (ReassemblerState.new 4 2) c3Bad 0).1 = .ok none ∧
    (processFecFrame (ReassemblerState.new 4 2) c3Bad 0).2.sessions ≠
      (ReassemblerState.new 4 2).sessions := by
  refine ⟨?_, rfl, ?_⟩
  · have heq : calculateFrameHash c3Bad = calculateFrameHash c3Base := rfl
    have hlt : calculateFrameHash c3Base < 18446744073709551616 := xxh64_lt _ _
    have hne : ¬ (calculateFrameHash c3Bad = c3Bad.xxhash64) := by
      rw [heq, show c3Bad.xxhash64 =
        (calculateFrameHash c3Base + 1) % 18446744073709551616 from rfl]
      omega
    simp [validateFrame, hne]
  · intro hcontra
    have h2 : lookupS (processFecFrame (ReassemblerState.new 4 2) c3Bad 0).2.sessions
        c3Bad.sessionId = none := by
      rw [hcontra]
      rfl
    rw [show (processFecFrame (ReassemblerState.new 4 2) c3Bad 0).2.sessions =
      updateS [] c3Bad.sessionId
        (.Collecting [(c3Bad.blockIndex, c3Bad.payload)] 1 0) from rfl] at h2
    rw [lookupS_updateS_self] at h2
    cases h2

/-- C3 (amended: `process_fec_frame` performs no integrity or bounds check —
its behaviour is independent of the stored xxhash64, and any block index,
in range or not, is accepted into a collecting session's block map; only the
duplicate-index part of the claim holds). For every frame, state and
instant: (1) changing the frame's xxhash64 field does not change the call's
result or the resulting state; (2) a frame whose block index is already
collected in its session is a no-op returning `Ok(None)`; (3) a frame with a
fresh block index — with no bound check against k+m — is inserted into the
session's collected blocks. -/
theorem c3_no_integrity_check (f : FecFrame) (h now : Nat) (r : ReassemblerState) :
    (processFecFrame r { f with xxhash64 := h } now = processFecFrame r f now) ∧
    (∀ blocks cnt t, f.sessionId.length = 16 →
      lookupS r.sessions f.sessionId = some (.Collecting blocks cnt t) →
      (lookupA blocks f.blockIndex).isSome = true →
      processFecFrame r f now = (.ok none, r)) ∧
    (∀ blocks cnt t, f.sessionId.length = 16 →
      lookupS r.sessions f.sessionId = some (.Collecting blocks cnt t) →
      lookupA blocks f.blockIndex = none → cnt + 1 < f.k →
      lookupS (processFecFrame r f now).2.sessions f.sessionId =
        some (.Collecting (updateA blocks f.blockIndex f.payload) (cnt + 1) t)) := by
  refine ⟨?_, ?_, ?_⟩
  · cases f
    rfl
  · intro blocks cnt t hsid hsess hdup
    simp only [processFecFrame, hsid]
    rw [if_neg (by omega)]
    simp only [processNewFrame, hsess, handleExistingSession]
    rw [if_pos hdup]
    simp only
    rw [updateS_self r.sessions f.sessionId _ hsess]
  · intro blocks cnt t hsid hsess hfresh hcnt
    simp only [processFecFrame, hsid]
    rw [if_neg (by omega)]
    simp only [processNewFrame, hsess, handleExistingSession, hfresh]
    rw [if_neg (by simp [hfresh])]
    rw [if_neg (by omega)]
    simp only
    exact lookupS_updateS_self _ _ _

/-- The C3 witness state: one session collecting block 0 of four. -/
def c3State : ReassemblerState :=
  { ReassemblerState.new 4 2 with
    sessions := [(List.range 16, .Collecting [(0, [9])] 1 0)] }

/-- The C3 witness frames: a duplicate of block 0, and a fresh out-of-range
block 100. -/
def c3Dup : FecFrame := createFecFrame (List.range 16) 0 4 2 [3] 0

/-- The out-of-range witness frame (block index 100 ≥ k + m = 6). -/
def c3Oor : FecFrame := createFecFrame (List.range 16) 100 4 2 [4] 0

/-- C3 witness: the result is hash-independent on a concrete frame, the
duplicate block is a no-op, and the out-of-range block index 100 is accepted
into the session. -/
theorem c3_no_integrity_check_witness :
    (processFecFrame c3State { c3Dup with xxhash64 := 12345 } 0 =
      processFecFrame c3State c3Dup 0) ∧
    processFecFrame c3State c3Dup 0 = (.ok none, c3State) ∧
    lookupS (processFecFrame c3State c3Oor 0).2.sessions (List.range 16) =
      some (.Collecting (updateA [(0, [9])] 100 [4]) 2 0) := by
  refine ⟨(c3_no_integrity_check c3Dup 12345 0 c3State).1, ?_, ?_⟩
  · exact (c3_no_integrity_check c3Dup 0 0 c3State).2.1 [(0, [9])] 1 0
      (by decide) (by decide) (by decide)
  · exact (c3_no_integrity_check c3Oor 0 0 c3State).2.2 [(0, [9])] 1 0
      (by decide) (by decide) (by decide) (by decide)

/-! ## Claim C9 -/

theorem mem_insertSet (l : List Nat) (id j : Nat) :
    j ∈ insertSet l id ↔ j = id ∨ j ∈ l := by
  by_cases h : id ∈ l
  · simp only [insertSet, if_pos h]
    constructor
    · exact fun hj => Or.inr hj
    · rintro (rfl | hj)
      · exact h
      · exact hj
  · simp [insertSet, if_neg h]

theorem mem_removeSet (l : List Nat) (id j : Nat) :
    j ∈ removeSet l id ↔ j ∈ l ∧ j ≠ id := by
  simp [removeSet]

theorem nodup_insertSet (l : List Nat) (id : Nat) (h : l.Nodup) :
    (insertSet l id).Nodup := by
  by_cases hm : id ∈ l
  · simpa [insertSet, if_pos hm] using h
  · simp only [insertSet, if_neg hm]
    exact List.Nodup.cons hm h

theorem nodup_removeSet (l : List Nat) (id : Nat) (h : l.Nodup) :
    (removeSet l id).Nodup := List.Nodup.filter _ h

theorem lookupA_none_iff {α : Type} (l : List (Nat × α)) (k : Nat) :
    lookupA l k = none ↔ k ∉ l.map Prod.fst := by
  induction l with
  | nil => simp [lookupA]
  | cons p rest ih =>
    simp only [lookupA, List.map_cons, List.mem_cons]
    by_cases hk : p.1 = k
    · subst hk
      simp
    · rw [if_neg hk, ih]
      have hne : ¬ (k = p.1) := fun hc => hk hc.symm
      tauto

theorem updateA_keys_present {α : Type} (l : List (Nat × α)) (k : Nat) (v : α)
    (h : k ∈ l.map Prod.fst) :
    (updateA l k v).map Prod.fst = l.map Prod.fst := by
  induction l with
  | nil => simp at h
  | cons p rest ih =>
    by_cases hk : p.1 = k
    · simp [updateA, hk]
    · simp only [List.map_cons, List.mem_cons] at h
      rcases h with h | h
      · exact absurd h.symm hk
      · simp [updateA, hk, ih h]

theorem updateA_keys_absent {α : Type} (l : List (Nat × α)) (k : Nat) (v : α)
    (h : k ∉ l.map Prod.fst) :
    (updateA l k v).map Prod.fst = l.map Prod.fst ++ [k] := by
  induction l with
  | nil => simp [updateA]
  | cons p rest ih =>
    simp only [List.map_cons, List.mem_cons] at h
    push_neg at h
    simp only [updateA]
    rw [if_neg (fun hc => h.1 hc.symm)]
    simp [ih h.2]

theorem eraseA_keys_sublist {α : Type} (l : List (Nat × α)) (k : Nat) :
    List.Sublist ((eraseA l k).map Prod.fst) (l.map Prod.fst) := by
  induction l with
  | nil => simp [eraseA]
  | cons p rest ih =>
    simp only [eraseA]
    by_cases hk : p.1 = k
    · rw [if_pos hk]
      simp only [List.map_cons]
      exact List.sublist_cons_self _ _
    · rw [if_neg hk]
      simp only [List.map_cons]
      exact ih.cons₂ _

theorem foldl_min_mem (xs : List Nat) (x : Nat) (key : Nat → Option Nat) :
    xs.foldl (fun best cand => if optKeyLt (key cand) (key best) then cand else best) x
      ∈ x :: xs := by
  induction xs generalizing x with
  | nil => simp
  | cons y ys ih =>
    simp only [List.foldl_cons]
    by_cases h : optKeyLt (key y) (key x)
    · simp only [if_pos h]
      have := ih y
      simp only [List.mem_cons] at this ⊢
      tauto
    · simp only [if_neg h]
      have := ih x
      simp only [List.mem_cons] at this ⊢
      tauto

theorem optKeyLt_trans (a b c : Option Nat) (h1 : optKeyLt a b = true)
    (h2 : optKeyLt b c = true) : optKeyLt a c = true := by
  cases a <;> cases b <;> cases c <;> simp_all [optKeyLt] <;> omega

theorem optKeyLt_total (a b : Option Nat) (hab : optKeyLt a b = false) :
    optKeyLt b a = true ∨ a = b := by
  cases a <;> cases b <;> simp_all [optKeyLt] <;> omega

theorem foldl_min_le (xs : List Nat) (x : Nat) (key : Nat → Option Nat) :
    ∀ j ∈ x :: xs,
      optKeyLt (key j) (key
        (xs.foldl
          (fun best cand => if optKeyLt (key cand) (key best) then cand else best)
          x)) = false := by
  induction xs generalizing x with
  | nil =>
    intro j hj
    simp only [List.mem_cons, List.not_mem_nil, or_false] at hj
    subst hj
    simp only [List.foldl_nil]
    cases hkj : key j <;> simp [optKeyLt]
  | cons y ys ih =>
    intro j hj
    simp only [List.foldl_cons]
    by_cases h : optKeyLt (key y) (key x)
    · rw [if_pos h]
      rcases List.mem_cons.mp hj with rfl | hj2
      · by_cases hc : optKeyLt (key j) (key (ys.foldl
          (fun best cand => if optKeyLt (key cand) (key best) then cand else best)
          y)) = true
        · exfalso
          have hyr := ih y y (List.mem_cons_self y ys)
          have := optKeyLt_trans _ _ _ h hc
          rw [this] at hyr
          cases hyr
        · simpa using hc
      · exact ih y j hj2
    · rw [if_neg h]
      rcases List.mem_cons.mp hj with rfl | hj2
      · exact ih j j (List.mem_cons_self j ys)
      · rcases List.mem_cons.mp hj2 with rfl | hj3
        · by_cases hc : optKeyLt (key j) (key (ys.foldl
            (fun best cand => if optKeyLt (key cand) (key best) then cand else best)
            x)) = true
          · exfalso
            have hxr := ih x x (List.mem_cons_self x ys)
            rcases optKeyLt_total _ _ (by simpa using h) with hxy | hxy
            · have := optKeyLt_trans _ _ _ hxy hc
              rw [this] at hxr
              cases hxr
            · rw [← hxy] at hxr
              rw [hc] at hxr
              cases hxr
          · simpa using hc
        · exact ih x j (List.mem_cons.mpr (Or.inr hj3))

/-- The pool exclusivity invariant: association keys and the free queue are
duplicate-free, each of the three collections holds exactly the ids whose
recorded state matches, no slot is `Closing`, and all ids are below the mint
counter. -/
structure PoolInv (p : PoolState) : Prop where
  keysNodup : (p.streamStates.map Prod.fst).Nodup
  freeNodup : p.freeStreams.Nodup
  memFree : ∀ j, j ∈ p.freeStreams ↔ lookupA p.streamStates j = some .Free
  memHigh : ∀ j, j ∈ p.highPriorityStreams ↔
    lookupA p.streamStates j = some .HighPriority
  memLow : ∀ j, j ∈ p.lowPriorityStreams ↔
    lookupA p.streamStates j = some .LowPriority
  noClosing : ∀ j, lookupA p.streamStates j ≠ some .Closing
  bound : ∀ j, j ∈ p.streamStates.map Prod.fst → j < p.nextStreamId

theorem inv_new (maxStreams : Nat) : PoolInv (PoolState.new maxStreams) := by
  refine ⟨by simp [PoolState.new], by simp [PoolState.new], ?_, ?_, ?_, ?_, ?_⟩ <;>
    intro j <;> simp [PoolState.new, lookupA]

theorem inv_updateActivity (p : PoolState) (id now : Nat) (h : PoolInv p) :
    PoolInv (p.updateActivity id now) :=
  ⟨h.keysNodup, h.freeNodup, h.memFree, h.memHigh, h.memLow, h.noClosing, h.bound⟩

theorem markStreamUsed_false (p : PoolState) (id : Nat) :
    p.markStreamUsed id false =
      { p with streamStates := updateA p.streamStates id .LowPriority,
               lowPriorityStreams := insertSet p.lowPriorityStreams id } := rfl

theorem markStreamUsed_true (p : PoolState) (id : Nat) :
    p.markStreamUsed id true =
      { p with streamStates := updateA p.streamStates id .HighPriority,
               highPriorityStreams := insertSet p.highPriorityStreams id } := rfl

theorem inv_markUsed (p : PoolState) (id : Nat) (hi : Bool)
    (hkn : (p.streamStates.map Prod.fst).Nodup)
    (hfn : p.freeStreams.Nodup)
    (hstate : lookupA p.streamStates id = some .Free)
    (hmfX : ∀ j, j ≠ id → (j ∈ p.freeStreams ↔
      lookupA p.streamStates j = some .Free))
    (hidfree : id ∉ p.freeStreams)
    (hmh : ∀ j, j ∈ p.highPriorityStreams ↔
      lookupA p.streamStates j = some .HighPriority)
    (hml : ∀ j, j ∈ p.lowPriorityStreams ↔
      lookupA p.streamStates j = some .LowPriority)
    (hnc : ∀ j, lookupA p.streamStates j ≠ some .Closing)
    (hb : ∀ j, j ∈ p.streamStates.map Prod.fst → j < p.nextStreamId) :
    PoolInv (p.markStreamUsed id hi) := by
  have hkeys : id ∈ p.streamStates.map Prod.fst := by
    by_contra hmem
    rw [← lookupA_none_iff] at hmem
    rw [hmem] at hstate
    cases hstate
  have hidhigh : id ∉ p.highPriorityStreams := by
    intro hc
    rw [hmh id, hstate] at hc
    cases hc
  have hidlow : id ∉ p.lowPriorityStreams := by
    intro hc
    rw [hml id, hstate] at hc
    cases hc
  cases hi
  · rw [markStreamUsed_false]
    refine ⟨?_, hfn, ?_, ?_, ?_, ?_, ?_⟩
    · simpa [updateA_keys_present _ _ _ hkeys] using hkn
    · intro j
      by_cases hj : j = id
      · subst hj
        simp only [lookupA_updateA_self]
        simp [hidfree]
      · rw [lookupA_updateA_ne _ _ _ _ (fun hc => hj hc.symm)]
        exact hmfX j hj
    · intro j
      by_cases hj : j = id
      · subst hj
        simp only [lookupA_updateA_self]
        simp [hidhigh]
      · rw [lookupA_updateA_ne _ _ _ _ (fun hc => hj hc.symm)]
        exact hmh j
    · intro j
      simp only [mem_insertSet]
      by_cases hj : j = id
      · subst hj
        simp only [lookupA_updateA_self]
        simp
      · rw [lookupA_updateA_ne _ _ _ _ (fun hc => hj hc.symm)]
        simp [hj, hml j]
    · intro j
      by_cases hj : j = id
      · subst hj
        simp only [lookupA_updateA_self]
        intro hc
        cases hc
      · rw [lookupA_updateA_ne _ _ _ _ (fun hc => hj hc.symm)]
        exact hnc j
    · intro j
      simpa [updateA_keys_present _ _ _ hkeys] using hb j
  · rw [markStreamUsed_true]
    refine ⟨?_, hfn, ?_, ?_, ?_, ?_, ?_⟩
    · simpa [updateA_keys_present _ _ _ hkeys] using hkn
    · intro j
      by_cases hj : j = id
      · subst hj
        simp only [lookupA_updateA_self]
        simp [hidfree]
      · rw [lookupA_updateA_ne _ _ _ _ (fun hc => hj hc.symm)]
        exact hmfX j hj
    · intro j
      simp only [mem_insertSet]
      by_cases hj : j = id
      · subst hj
        simp only [lookupA_updateA_self]
        simp
      · rw [lookupA_updateA_ne _ _ _ _ (fun hc => hj hc.symm)]
        simp [hj, hmh j]
    · intro j
      by_cases hj : j = id
      · subst hj
        simp only [lookupA_updateA_self]
        simp [hidlow]
      · rw [lookupA_updateA_ne _ _ _ _ (fun hc => hj hc.symm)]
        exact hml j
    · intro j
      by_cases hj : j = id
      · subst hj
        simp only [lookupA_updateA_self]
        intro hc
        cases hc
      · rw [lookupA_updateA_ne _ _ _ _ (fun hc => hj hc.symm)]
        exact hnc j
    · intro j
      simpa [updateA_keys_present _ _ _ hkeys] using hb j

theorem findStreamToPreempt_mem (p : PoolState) (id : Nat)
    (h : p.findStreamToPreempt = some id) : id ∈ p.lowPriorityStreams := by
  cases hlow : p.lowPriorityStreams with
  | nil => simp [PoolState.findStreamToPreempt, hlow] at h
  | cons x xs =>
    simp only [PoolState.findStreamToPreempt, hlow, Option.some.injEq] at h
    rw [← h]
    exact foldl_min_mem xs x (fun cand => lookupA p.lastActivity cand)

theorem inv_preempt (p : PoolState) (id : Nat) (inv : PoolInv p)
    (hid : id ∈ p.lowPriorityStreams) : PoolInv (p.preemptStream id) := by
  have hlk : lookupA p.streamStates id = some .LowPriority := (inv.memLow id).mp hid
  have hkeys : id ∈ p.streamStates.map Prod.fst := by
    by_contra hmem
    rw [← lookupA_none_iff] at hmem
    rw [hmem] at hlk
    cases hlk
  have h1 : ((updateA p.streamStates id .HighPriority).map Prod.fst).Nodup := by
    simpa [updateA_keys_present _ _ _ hkeys] using inv.keysNodup
  have h3 : ∀ j, j ∈ p.freeStreams ↔
      lookupA (updateA p.streamStates id .HighPriority) j = some .Free := by
    intro j
    by_cases hj : j = id
    · subst hj
      rw [lookupA_updateA_self]
      have hnf : j ∉ p.freeStreams := by
        intro hc
        rw [inv.memFree j, hlk] at hc
        cases hc
      simp [hnf]
    · rw [lookupA_updateA_ne _ _ _ _ (fun hc => hj hc.symm)]
      exact inv.memFree j
  have h4 : ∀ j, j ∈ insertSet p.highPriorityStreams id ↔
      lookupA (updateA p.streamStates id .HighPriority) j = some .HighPriority := by
    intro j
    rw [mem_insertSet]
    by_cases hj : j = id
    · subst hj
      rw [lookupA_updateA_self]
      simp
    · rw [lookupA_updateA_ne _ _ _ _ (fun hc => hj hc.symm)]
      simp [hj, inv.memHigh j]
  have h5 : ∀ j, j ∈ removeSet p.lowPriorityStreams id ↔
      lookupA (updateA p.streamStates id .HighPriority) j = some .LowPriority := by
    intro j
    rw [mem_removeSet]
    by_cases hj : j = id
    · subst hj
      rw [lookupA_updateA_self]
      simp
    · rw [lookupA_updateA_ne _ _ _ _ (fun hc => hj hc.symm)]
      simp [hj, inv.memLow j]
  have h6 : ∀ j, lookupA (updateA p.streamStates id .HighPriority) j ≠
      some .Closing := by
    intro j
    by_cases hj : j = id
    · subst hj
      rw [lookupA_updateA_self]
      intro hc
      cases hc
    · rw [lookupA_updateA_ne _ _ _ _ (fun hc => hj hc.symm)]
      exact inv.noClosing j
  have h7 : ∀ j, j ∈ (updateA p.streamStates id .HighPriority).map Prod.fst →
      j < p.nextStreamId := by
    intro j
    rw [updateA_keys_present _ _ _ hkeys]
    exact inv.bound j
  exact ⟨h1, inv.freeNodup, h3, h4, h5, h6, h7⟩

theorem inv_acquire (p : PoolState) (hi : Bool) (now : Nat) (inv : PoolInv p) :
    PoolInv (p.acquireStream hi now).2 := by
  cases hfree : p.freeStreams with
  | cons id rest =>
    simp only [PoolState.acquireStream, hfree]
    have hnd : (id :: rest).Nodup := hfree ▸ inv.freeNodup
    have h2 : rest.Nodup := hnd.of_cons
    have h3 : lookupA p.streamStates id = some .Free :=
      (inv.memFree id).mp (by rw [hfree]; exact List.mem_cons_self id rest)
    have h4 : ∀ j, j ≠ id → (j ∈ rest ↔ lookupA p.streamStates j = some .Free) := by
      intro j hj
      have hmf := inv.memFree j
      rw [hfree] at hmf
      rw [← hmf]
      simp [hj]
    have h5 : id ∉ rest := (List.nodup_cons.mp hnd).1
    exact inv_updateActivity _ id now (inv_markUsed _ id hi
      inv.keysNodup h2 h3 h4 h5 inv.memHigh inv.memLow inv.noClosing inv.bound)
  | nil =>
    by_cases hlt : p.streamStates.length < p.maxStreams
    · simp only [PoolState.acquireStream, hfree, if_pos hlt]
      have hnotin : p.nextStreamId ∉ p.streamStates.map Prod.fst :=
        fun hc => absurd (inv.bound _ hc) (lt_irrefl _)
      have hnone : lookupA p.streamStates p.nextStreamId = none :=
        (lookupA_none_iff _ _).mpr hnotin
      have h1 : ((updateA p.streamStates p.nextStreamId .Free).map Prod.fst).Nodup := by
        rw [updateA_keys_absent _ _ _ hnotin]
        simp only [List.nodup_append, List.nodup_cons, List.not_mem_nil,
          not_false_iff, List.nodup_nil, and_true, true_and]
        refine ⟨inv.keysNodup, ?_⟩
        intro a ha hb
        rcases List.mem_singleton.mp hb with rfl
        exact hnotin ha
      have h2 : ([] : List Nat).Nodup := List.nodup_nil
      have h3 : lookupA (updateA p.streamStates p.nextStreamId .Free)
          p.nextStreamId = some .Free := lookupA_updateA_self _ _ _
      have h4 : ∀ j, j ≠ p.nextStreamId → (j ∈ ([] : List Nat) ↔
          lookupA (updateA p.streamStates p.nextStreamId .Free) j = some .Free) := by
        intro j hj
        rw [lookupA_updateA_ne _ _ _ _ (fun hc => hj hc.symm)]
        constructor
        · intro hc
          cases hc
        · intro hc
          have hcm := (inv.memFree j).mpr hc
          rw [hfree] at hcm
          cases hcm
      have h5 : p.nextStreamId ∉ ([] : List Nat) := List.not_mem_nil _
      have h6 : ∀ j, j ∈ p.highPriorityStreams ↔
          lookupA (updateA p.streamStates p.nextStreamId .Free) j =
            some .HighPriority := by
        intro j
        by_cases hj : j = p.nextStreamId
        · subst hj
          rw [lookupA_updateA_self]
          simp [inv.memHigh p.nextStreamId, hnone]
        · rw [lookupA_updateA_ne _ _ _ _ (fun hc => hj hc.symm)]
          exact inv.memHigh j
      have h7 : ∀ j, j ∈ p.lowPriorityStreams ↔
          lookupA (updateA p.streamStates p.nextStreamId .Free) j =
            some .LowPriority := by
        intro j
        by_cases hj : j = p.nextStreamId
        · subst hj
          rw [lookupA_updateA_self]
          simp [inv.memLow p.nextStreamId, hnone]
        · rw [lookupA_updateA_ne _ _ _ _ (fun hc => hj hc.symm)]
          exact inv.memLow j
      have h8 : ∀ j, lookupA (updateA p.streamStates p.nextStreamId .Free) j ≠
          some .Closing := by
        intro j
        by_cases hj : j = p.nextStreamId
        · subst hj
          rw [lookupA_updateA_self]
          intro hc
          cases hc
        · rw [lookupA_updateA_ne _ _ _ _ (fun hc => hj hc.symm)]
          exact inv.noClosing j
      have h9 : ∀ j, j ∈ (updateA p.streamStates p.nextStreamId .Free).map Prod.fst →
          j < p.nextStreamId + 4 := by
        intro j hjmem
        rw [updateA_keys_absent _ _ _ hnotin, List.mem_append] at hjmem
        rcases hjmem with hjm | hjm
        · exact Nat.lt_of_lt_of_le (inv.bound j hjm) (Nat.le_add_right _ 4)
        · rcases List.mem_singleton.mp hjm with rfl
          exact Nat.lt_add_of_pos_right (by decide)
      exact inv_updateActivity _ _ now
        (inv_markUsed _ _ hi h1 h2 h3 h4 h5 h6 h7 h8 h9)
    · by_cases hpre : hi = true ∧ p.lowPriorityStreams ≠ []
      · simp only [PoolState.acquireStream, hfree, if_neg hlt, if_pos hpre]
        cases hfind : p.findStreamToPreempt with
        | some id =>
          exact inv_updateActivity _ id now
            (inv_preempt p id inv (findStreamToPreempt_mem p id hfind))
        | none => exact inv
      · simp only [PoolState.acquireStream, hfree, if_neg hlt, if_neg hpre]
        exact inv

theorem inv_release (p : PoolState) (id now : Nat) (inv : PoolInv p) :
    PoolInv (p.releaseStream id now) := by
  cases hl : lookupA p.streamStates id with
  | none => simpa only [PoolState.releaseStream, hl] using inv
  | some v =>
    have hkeys : id ∈ p.streamStates.map Prod.fst := by
      by_contra hmem
      rw [← lookupA_none_iff] at hmem
      rw [hmem] at hl
      cases hl
    cases v with
    | Free => simpa only [PoolState.releaseStream, hl] using inv
    | Closing => simpa only [PoolState.releaseStream, hl] using inv
    | HighPriority =>
      simp only [PoolState.releaseStream, hl]
      have hnf : id ∉ p.freeStreams := by
        intro hc
        rw [inv.memFree id, hl] at hc
        cases hc
      have h1 : ((updateA p.streamStates id .Free).map Prod.fst).Nodup := by
        simpa [updateA_keys_present _ _ _ hkeys] using inv.keysNodup
      have h2 : (p.freeStreams ++ [id]).Nodup := by
        simp [List.nodup_append, inv.freeNodup, hnf]
      have h3 : ∀ j, j ∈ p.freeStreams ++ [id] ↔
          lookupA (updateA p.streamStates id .Free) j = some .Free := by
        intro j
        rw [List.mem_append, List.mem_singleton]
        by_cases hj : j = id
        · subst hj
          rw [lookupA_updateA_self]
          simp
        · rw [lookupA_updateA_ne _ _ _ _ (fun hc => hj hc.symm)]
          simp [hj, inv.memFree j]
      have h4 : ∀ j, j ∈ removeSet p.highPriorityStreams id ↔
          lookupA (updateA p.streamStates id .Free) j = some .HighPriority := by
        intro j
        rw [mem_removeSet]
        by_cases hj : j = id
        · subst hj
          rw [lookupA_updateA_self]
          simp
        · rw [lookupA_updateA_ne _ _ _ _ (fun hc => hj hc.symm)]
          simp [hj, inv.memHigh j]
      have h5 : ∀ j, j ∈ p.lowPriorityStreams ↔
          lookupA (updateA p.streamStates id .Free) j = some .LowPriority := by
        intro j
        by_cases hj : j = id
        · subst hj
          rw [lookupA_updateA_self]
          simp [inv.memLow j, hl]
        · rw [lookupA_updateA_ne _ _ _ _ (fun hc => hj hc.symm)]
          exact inv.memLow j
      have h6 : ∀ j, lookupA (updateA p.streamStates id .Free) j ≠
          some .Closing := by
        intro j
        by_cases hj : j = id
        · subst hj
          rw [lookupA_updateA_self]
          intro hc
          cases hc
        · rw [lookupA_updateA_ne _ _ _ _ (fun hc => hj hc.symm)]
          exact inv.noClosing j
      have h7 : ∀ j, j ∈ (updateA p.streamStates id .Free).map Prod.fst →
          j < p.nextStreamId := by
        intro j
        rw [updateA_keys_present _ _ _ hkeys]
        exact inv.bound j
      exact ⟨h1, h2, h3, h4, h5, h6, h7⟩
    | LowPriority =>
      simp only [PoolState.releaseStream, hl]
      have hnf : id ∉ p.freeStreams := by
        intro hc
        rw [inv.memFree id, hl] at hc
        cases hc
      have h1 : ((updateA p.streamStates id .Free).map Prod.fst).Nodup := by
        simpa [updateA_keys_present _ _ _ hkeys] using inv.keysNodup
      have h2 : (p.freeStreams ++ [id]).Nodup := by
        simp [List.nodup_append, inv.freeNodup, hnf]
      have h3 : ∀ j, j ∈ p.freeStreams ++ [id] ↔
          lookupA (updateA p.streamStates id .Free) j = some .Free := by
        intro j
        rw [List.mem_append, List.mem_singleton]
        by_cases hj : j = id
        · subst hj
          rw [lookupA_updateA_self]
          simp
        · rw [lookupA_updateA_ne _ _ _ _ (fun hc => hj hc.symm)]
          simp [hj, inv.memFree j]
      have h4 : ∀ j, j ∈ p.highPriorityStreams ↔
          lookupA (updateA p.streamStates id .Free) j = some .HighPriority := by
        intro j
        by_cases hj : j = id
        · subst hj
          rw [lookupA_updateA_self]
          simp [inv.memHigh j, hl]
        · rw [lookupA_updateA_ne _ _ _ _ (fun hc => hj hc.symm)]
          exact inv.memHigh j
      have h5 : ∀ j, j ∈ removeSet p.lowPriorityStreams id ↔
          lookupA (updateA p.streamStates id .Free) j = some .LowPriority := by
        intro j
        rw [mem_removeSet]
        by_cases hj : j = id
        · subst hj
          rw [lookupA_updateA_self]
          simp
        · rw [lookupA_updateA_ne _ _ _ _ (fun hc => hj hc.symm)]
          simp [hj, inv.memLow j]
      have h6 : ∀ j, lookupA (updateA p.streamStates id .Free) j ≠
          some .Closing := by
        intro j
        by_cases hj : j = id
        · subst hj
          rw [lookupA_updateA_self]
          intro hc
          cases hc
        · rw [lookupA_updateA_ne _ _ _ _ (fun hc => hj hc.symm)]
          exact inv.noClosing j
      have h7 : ∀ j, j ∈ (updateA p.streamStates id .Free).map Prod.fst →
          j < p.nextStreamId := by
        intro j
        rw [updateA_keys_present _ _ _ hkeys]
        exact inv.bound j
      exact ⟨h1, h2, h3, h4, h5, h6, h7⟩

theorem inv_close (p : PoolState) (id : Nat) (inv : PoolInv p) :
    PoolInv (p.closeStream id) := by
  have h1 : ((eraseA p.streamStates id).map Prod.fst).Nodup :=
    (eraseA_keys_sublist p.streamStates id).nodup inv.keysNodup
  have h3 : ∀ j, j ∈ removeSet p.freeStreams id ↔
      lookupA (eraseA p.streamStates id) j = some .Free := by
    intro j
    rw [mem_removeSet]
    by_cases hj : j = id
    · subst hj
      rw [lookupA_eraseA_self _ _ inv.keysNodup]
      simp
    · rw [lookupA_eraseA_ne _ _ _ (fun hc => hj hc.symm)]
      simp [hj, inv.memFree j]
  have h4 : ∀ j, j ∈ removeSet p.highPriorityStreams id ↔
      lookupA (eraseA p.streamStates id) j = some .HighPriority := by
    intro j
    rw [mem_removeSet]
    by_cases hj : j = id
    · subst hj
      rw [lookupA_eraseA_self _ _ inv.keysNodup]
      simp
    · rw [lookupA_eraseA_ne _ _ _ (fun hc => hj hc.symm)]
      simp [hj, inv.memHigh j]
  have h5 : ∀ j, j ∈ removeSet p.lowPriorityStreams id ↔
      lookupA (eraseA p.streamStates id) j = some .LowPriority := by
    intro j
    rw [mem_removeSet]
    by_cases hj : j = id
    · subst hj
      rw [lookupA_eraseA_self _ _ inv.keysNodup]
      simp
    · rw [lookupA_eraseA_ne _ _ _ (fun hc => hj hc.symm)]
      simp [hj, inv.memLow j]
  have h6 : ∀ j, lookupA (eraseA p.streamStates id) j ≠ some .Closing := by
    intro j
    by_cases hj : j = id
    · subst hj
      rw [lookupA_eraseA_self _ _ inv.keysNodup]
      intro hc
      cases hc
    · rw [lookupA_eraseA_ne _ _ _ (fun hc => hj hc.symm)]
      exact inv.noClosing j
  have h7 : ∀ j, j ∈ (eraseA p.streamStates id).map Prod.fst →
      j < p.nextStreamId := fun j hj =>
    inv.bound j ((eraseA_keys_sublist p.streamStates id).subset hj)
  exact ⟨h1, nodup_removeSet _ _ inv.freeNodup, h3, h4, h5, h6, h7⟩

theorem inv_closeFold (l : List Nat) (p : PoolState) (inv : PoolInv p) :
    PoolInv (l.foldl (fun q id => q.closeStream id) p) := by
  induction l generalizing p with
  | nil => exact inv
  | cons x xs ih => exact ih _ (inv_close p x inv)

theorem inv_cleanup (p : PoolState) (now : Nat) (inv : PoolInv p) :
    PoolInv (p.cleanupIdleStreams now) :=
  inv_closeFold _ p inv

theorem inv_applyOp (p : PoolState) (op : PoolOp) (inv : PoolInv p) :
    PoolInv (applyPoolOp p op) := by
  cases op with
  | acquire isHigh now => exact inv_acquire p isHigh now inv
  | release id now => exact inv_release p id now inv
  | close id => exact inv_close p id inv
  | cleanup now => exact inv_cleanup p now inv

theorem inv_foldOps (ops : List PoolOp) (p : PoolState) (inv : PoolInv p) :
    PoolInv (ops.foldl applyPoolOp p) := by
  induction ops generalizing p with
  | nil => exact inv
  | cons op rest ih => exact ih _ (inv_applyOp p op inv)

theorem inv_runPool (maxStreams : Nat) (ops : List PoolOp) :
    PoolInv (runPool maxStreams ops) :=
  inv_foldOps ops _ (inv_new maxStreams)

/-- C9: in every `StreamPool` state reachable from `new` by any sequence of
`acquire_stream`, `release_stream`, `close_stream` and `cleanup_idle_streams`
calls, each stream id lies in the free queue iff its `stream_states` entry is
`Free`, in the high set iff it is `HighPriority`, in the low set iff it is
`LowPriority`; the three collections are pairwise disjoint, an unallocated id
(no entry) lies in none of them, and no entry is ever `Closing`, so each id
belongs to exactly one of free, high, low, or not-allocated. -/
theorem c9_pool_exclusivity (maxStreams : Nat) (ops : List PoolOp) (id : Nat) :
    (id ∈ (runPool maxStreams ops).freeStreams ↔
      lookupA (runPool maxStreams ops).streamStates id = some .Free) ∧
    (id ∈ (runPool maxStreams ops).highPriorityStreams ↔
      lookupA (runPool maxStreams ops).streamStates id = some .HighPriority) ∧
    (id ∈ (runPool maxStreams ops).lowPriorityStreams ↔
      lookupA (runPool maxStreams ops).streamStates id = some .LowPriority) ∧
    (lookupA (runPool maxStreams ops).streamStates id = none →
      id ∉ (runPool maxStreams ops).freeStreams ∧
      id ∉ (runPool maxStreams ops).highPriorityStreams ∧
      id ∉ (runPool maxStreams ops).lowPriorityStreams) ∧
    ¬(id ∈ (runPool maxStreams ops).freeStreams ∧
      id ∈ (runPool maxStreams ops).highPriorityStreams) ∧
    ¬(id ∈ (runPool maxStreams ops).freeStreams ∧
      id ∈ (runPool maxStreams ops).lowPriorityStreams) ∧
    ¬(id ∈ (runPool maxStreams ops).highPriorityStreams ∧
      id ∈ (runPool maxStreams ops).lowPriorityStreams) ∧
    lookupA (runPool maxStreams ops).streamStates id ≠ some .Closing := by
  have inv := inv_runPool maxStreams ops
  refine ⟨inv.memFree id, inv.memHigh id, inv.memLow id, ?_, ?_, ?_, ?_,
    inv.noClosing id⟩
  · intro hnone
    refine ⟨?_, ?_, ?_⟩
    · intro hc
      rw [inv.memFree id, hnone] at hc
      cases hc
    · intro hc
      rw [inv.memHigh id, hnone] at hc
      cases hc
    · intro hc
      rw [inv.memLow id, hnone] at hc
      cases hc
  · rintro ⟨ha, hb⟩
    rw [inv.memFree id] at ha
    rw [inv.memHigh id, ha] at hb
    cases hb
  · rintro ⟨ha, hb⟩
    rw [inv.memFree id] at ha
    rw [inv.memLow id, ha] at hb
    cases hb
  · rintro ⟨ha, hb⟩
    rw [inv.memHigh id] at ha
    rw [inv.memLow id, ha] at hb
    cases hb

theorem optKeyLt_some_false (a b : Nat)
    (h : optKeyLt (some a) (some b) = false) : b ≤ a := by
  simp only [optKeyLt, decide_eq_false_iff_not, Nat.not_lt] at h
  exact h

/-- C10: when the free queue is empty and the pool is at its `max_streams`
cap, a high-priority `acquire_stream` returns a currently-LowPriority slot
whose `last_activity` is minimal among all LowPriority slots (given each such
slot has an activity record), relabels it `HighPriority` (entry updated,
moved from the low set to the high set), while a low-priority
`acquire_stream` never preempts: it returns `None` and leaves the pool
unchanged. -/
theorem c10_preemption_lru (p : PoolState) (now : Nat)
    (hfree : p.freeStreams = [])
    (hfull : ¬ p.streamStates.length < p.maxStreams)
    (hlow : p.lowPriorityStreams ≠ [])
    (hact : ∀ j ∈ p.lowPriorityStreams, (lookupA p.lastActivity j).isSome = true) :
    (∃ id t,
      (p.acquireStream true now).1 = some id ∧
      id ∈ p.lowPriorityStreams ∧
      lookupA p.lastActivity id = some t ∧
      (∀ j ∈ p.lowPriorityStreams, ∀ tj,
        lookupA p.lastActivity j = some tj → t ≤ tj) ∧
      lookupA (p.acquireStream true now).2.streamStates id =
        some .HighPriority ∧
      id ∈ (p.acquireStream true now).2.highPriorityStreams ∧
      id ∉ (p.acquireStream true now).2.lowPriorityStreams) ∧
    p.acquireStream false now = (none, p) := by
  cases hlowm : p.lowPriorityStreams with
  | nil => exact absurd hlowm hlow
  | cons x xs =>
    have hfind : p.findStreamToPreempt =
        some (xs.foldl (fun best cand =>
          if optKeyLt (lookupA p.lastActivity cand) (lookupA p.lastActivity best)
          then cand else best) x) := by
      simp [PoolState.findStreamToPreempt, hlowm]
    have hstep : p.acquireStream true now =
        (some (xs.foldl (fun best cand =>
            if optKeyLt (lookupA p.lastActivity cand) (lookupA p.lastActivity best)
            then cand else best) x),
          ((p.preemptStream (xs.foldl (fun best cand =>
            if optKeyLt (lookupA p.lastActivity cand) (lookupA p.lastActivity best)
            then cand else best) x)).updateActivity (xs.foldl (fun best cand =>
            if optKeyLt (lookupA p.lastActivity cand) (lookupA p.lastActivity best)
            then cand else best) x) now)) := by
      simp [PoolState.acquireStream, hfree, hfull, hlow, hfind]
    have hmem : (xs.foldl (fun best cand =>
        if optKeyLt (lookupA p.lastActivity cand) (lookupA p.lastActivity best)
        then cand else best) x) ∈ x :: xs :=
      foldl_min_mem xs x (fun cand => lookupA p.lastActivity cand)
    obtain ⟨t, ht⟩ := Option.isSome_iff_exists.mp (hact _ (hlowm ▸ hmem))
    refine ⟨⟨_, t, ?_, hmem, ht, ?_, ?_, ?_, ?_⟩, ?_⟩
    · rw [hstep]
    · intro j hj tj htj
      have hle := foldl_min_le xs x (fun cand => lookupA p.lastActivity cand) j hj
      simp only [htj, ht] at hle
      exact optKeyLt_some_false tj t hle
    · rw [hstep]
      simp [PoolState.updateActivity, PoolState.preemptStream, lookupA_updateA_self]
    · rw [hstep]
      simp [PoolState.updateActivity, PoolState.preemptStream, mem_insertSet]
    · rw [hstep]
      simp [PoolState.updateActivity, PoolState.preemptStream, mem_removeSet]
    · simp [PoolState.acquireStream, hfree, hfull]

def c10Pool : PoolState :=
  { streamStates := [(0, .LowPriority), (4, .LowPriority)], freeStreams := [],
    highPriorityStreams := [], lowPriorityStreams := [0, 4], nextStreamId := 8,
    maxStreams := 2, idleTimeout := 30, lastActivity := [(0, 5), (4, 3)] }

theorem c10_preemption_lru_witness :
    (∃ id t,
      (c10Pool.acquireStream true 100).1 = some id ∧
      id ∈ c10Pool.lowPriorityStreams ∧
      lookupA c10Pool.lastActivity id = some t ∧
      (∀ j ∈ c10Pool.lowPriorityStreams, ∀ tj,
        lookupA c10Pool.lastActivity j = some tj → t ≤ tj) ∧
      lookupA (c10Pool.acquireStream true 100).2.streamStates id =
        some .HighPriority ∧
      id ∈ (c10Pool.acquireStream true 100).2.highPriorityStreams ∧
      id ∉ (c10Pool.acquireStream true 100).2.lowPriorityStreams) ∧
    c10Pool.acquireStream false 100 = (none, c10Pool) :=
  c10_preemption_lru c10Pool 100 (by decide) (by decide) (by decide) (by decide)

theorem releaseStream_ne (p : PoolState) (j id now : Nat) (hne : j ≠ id) :
    lookupA (p.releaseStream j now).streamStates id =
      lookupA p.streamStates id ∧
    (id ∈ p.freeStreams → id ∈ (p.releaseStream j now).freeStreams) := by
  cases hl : lookupA p.streamStates j with
  | none => simp [PoolState.releaseStream, hl]
  | some v =>
    cases v with
    | Free => simp [PoolState.releaseStream, hl]
    | Closing => simp [PoolState.releaseStream, hl]
    | HighPriority =>
      refine ⟨?_, ?_⟩
      · simp [PoolState.releaseStream, hl, lookupA_updateA_ne _ j id _ hne]
      · intro hm
        simp [PoolState.releaseStream, hl, List.mem_append, hm]
    | LowPriority =>
      refine ⟨?_, ?_⟩
      · simp [PoolState.releaseStream, hl, lookupA_updateA_ne _ j id _ hne]
      · intro hm
        simp [PoolState.releaseStream, hl, List.mem_append, hm]

theorem releaseStream_self_free (p : PoolState) (id now : Nat)
    (h : lookupA p.streamStates id = some .Free) : p.releaseStream id now = p := by
  simp [PoolState.releaseStream, h]

theorem releaseStream_self_used (p : PoolState) (id now : Nat)
    (h : lookupA p.streamStates id = some .HighPriority ∨
      lookupA p.streamStates id = some .LowPriority) :
    lookupA (p.releaseStream id now).streamStates id = some .Free ∧
    id ∈ (p.releaseStream id now).freeStreams := by
  rcases h with h | h <;>
    simp [PoolState.releaseStream, h, lookupA_updateA_self, List.mem_append]

theorem releaseFold_keeps (l : List Nat) (p : PoolState) (now id : Nat)
    (h1 : lookupA p.streamStates id = some .Free) (h2 : id ∈ p.freeStreams) :
    lookupA (l.foldl (fun q j => q.releaseStream j now) p).streamStates id =
      some .Free ∧
    id ∈ (l.foldl (fun q j => q.releaseStream j now) p).freeStreams := by
  induction l generalizing p with
  | nil => exact ⟨h1, h2⟩
  | cons x xs ih =>
    by_cases hx : x = id
    · subst hx
      rw [List.foldl_cons, releaseStream_self_free p x now h1]
      exact ih p h1 h2
    · have hr := releaseStream_ne p x id now hx
      rw [List.foldl_cons]
      exact ih _ (by rw [hr.1]; exact h1) (hr.2 h2)

theorem releaseFold_frees (l : List Nat) (p : PoolState) (now id : Nat)
    (hid : id ∈ l)
    (h : lookupA p.streamStates id = some .HighPriority ∨
      lookupA p.streamStates id = some .LowPriority) :
    lookupA (l.foldl (fun q j => q.releaseStream j now) p).streamStates id =
      some .Free ∧
    id ∈ (l.foldl (fun q j => q.releaseStream j now) p).freeStreams := by
  induction l generalizing p with
  | nil => cases hid
  | cons x xs ih =>
    by_cases hx : x = id
    · subst hx
      have hs := releaseStream_self_used p x now h
      rw [List.foldl_cons]
      exact releaseFold_keeps xs _ now x hs.1 hs.2
    · rcases List.mem_cons.mp hid with rfl | hid2
      · exact absurd rfl (fun hc => hx hc.symm)
      · have hr := releaseStream_ne p x id now hx
        rw [List.foldl_cons]
        refine ih _ hid2 ?_
        rcases h with h | h
        · exact Or.inl (by rw [hr.1]; exact h)
        · exact Or.inr (by rw [hr.1]; exact h)

/-- C8: `mark_session_complete` releases every stream held in the session's
current `ActiveSession` record — each recorded stream in use (HighPriority
or LowPriority) becomes `Free` and joins the free queue — and the record is
dropped. Only the current record is consulted: streams recorded by an
earlier partial dispatch whose record was since overwritten by
`active_sessions.insert` in `try_send` are not released (see the
accompanying run of the scheduler in which stream 4 leaks). -/
theorem c8_session_release (sched : SchedState) (sid now : Nat)
    (sess : ActiveSession)
    (hrec : lookupA sched.activeSessions sid = some sess)
    (id : Nat) (hid : id ∈ sess.assignedStreams)
    (hstate : lookupA sched.pool.streamStates id = some .HighPriority ∨
      lookupA sched.pool.streamStates id = some .LowPriority) :
    lookupA (sched.markSessionComplete sid now).pool.streamStates id =
      some .Free ∧
    id ∈ (sched.markSessionComplete sid now).pool.freeStreams := by
  simp only [SchedState.markSessionComplete, hrec]
  exact releaseFold_frees sess.assignedStreams sched.pool now id hid hstate

def c8Frame (i : Nat) : FecFrame := createFecFrame (List.range 16) i 2 1 [i] 0

def c8Sched0 : SchedState :=
  (SchedState.new 2 0).submitFecTask [c8Frame 0, c8Frame 1, c8Frame 2] 7 .Low 0

def c8Sched1 : SchedState := (c8Sched0.trySend 0).2

def c8Sched2 : SchedState := ((c8Sched1.markFrameSent 0 0).trySend 0).2

def c8Sched3 : SchedState := c8Sched2.markSessionComplete 7 0

/-- A two-stream scheduler run refuting the unqualified claim: a task of
three frames for session 7 is dispatched partially (streams 0 and 4
acquired and recorded), stream 0 is released and the second `try_send`
dispatches the remaining frame on it, overwriting the session record to
`[0]`; after `mark_session_complete` the session entry is gone, yet stream
4 — acquired for and once recorded against this session — is still
`LowPriority` and absent from the free queue: it was never released. -/
theorem c8_counterexample :
    (lookupA c8Sched1.activeSessions 7).map ActiveSession.assignedStreams =
      some [0, 4] ∧
    (lookupA c8Sched2.activeSessions 7).map ActiveSession.assignedStreams =
      some [0] ∧
    lookupA c8Sched3.pool.streamStates 4 = some .LowPriority ∧
    4 ∉ c8Sched3.pool.freeStreams ∧
    lookupA c8Sched3.activeSessions 7 = none := by
  refine ⟨rfl, rfl, rfl, by decide, rfl⟩

theorem c8_session_release_witness :
    lookupA (c8Sched1.markSessionComplete 7 0).pool.streamStates 4 =
      some .Free ∧
    4 ∈ (c8Sched1.markSessionComplete 7 0).pool.freeStreams :=
  c8_session_release c8Sched1 7 0
    { sentFrames := 2, totalFrames := 3, assignedStreams := [0, 4],
      startTime := 0 }
    (by decide) 4 (by decide) (Or.inr (by decide))
